import Mathlib

/-!
Thing.h : typed property cells, devices and adapters.

A shallow embedding of `src/Thing.h`.

* A C++ pointer is a `Ptr`: `Ptr.null` is `nullptr`, `Ptr.addr a` points at the
  object living at address `a`.
* Objects that are reached through pointers live in a heap, a total map from
  addresses to objects (`PropertyHeap`, `DeviceHeap`).  A member function that
  writes through a pointer returns the updated heap.
* `uint8_t` counters are natural numbers reduced modulo `256` at every increment.
* A `char` buffer is a list of byte values; a C string handed to a function is
  given by its characters, the terminating zero byte being appended when the
  string is read as memory.
* Code that may dereference a null pointer or read past the end of a buffer
  returns an `Option`; `none` stands for undefined behaviour.
* `ThingPropertyString.setValueIn` is `setValue` in a memory where the bytes that
  follow the buffer are given, so that a comparison running past the buffer reads
  them; the two agree wherever `setValue` is not `none`.
-/

namespace Thing

/-! ## Data model -/

/-- A C++ pointer: `nullptr` or the address of an object. -/
inductive Ptr where
  | null : Ptr
  | addr (a : Nat) : Ptr
  deriving DecidableEq, Repr, Inhabited

/-- The enum `ThingPropertyDatatype`. -/
inductive ThingPropertyDatatype where
  | BOOLEAN
  | NUMBER
  | STRING
  deriving DecidableEq, Repr, Inhabited

/-- The enum `ThingType`. -/
inductive ThingType where
  | THING
  | ONOFFSWITCH
  | MULTILEVELSWITCH
  | BINARYSENSOR
  | MULTILEVELSENSOR
  | SMARTPLUG
  deriving DecidableEq, Repr, Inhabited

/-- The base class `ThingProperty`; the member defaults are those of the class. -/
structure ThingProperty where
  next : Ptr := Ptr.null
  name : Option String := none
  description : Option String := none
  changed : Bool := false
  type : ThingPropertyDatatype := ThingPropertyDatatype.NUMBER
  deriving DecidableEq, Repr, Inhabited

/-- The constructor `ThingProperty(propertyName, propertyDescription, propertyDatatype)`. -/
def ThingProperty.new (propertyName propertyDescription : Option String)
    (propertyDatatype : ThingPropertyDatatype) : ThingProperty :=
  { name := propertyName, description := propertyDescription, type := propertyDatatype }

/-- The class `ThingPropertyBoolean`. -/
structure ThingPropertyBoolean extends ThingProperty where
  value : Bool
  deriving DecidableEq, Repr, Inhabited

/-- The class `ThingPropertyNumber`; `value` is an `int32_t`, no arithmetic is done on it. -/
structure ThingPropertyNumber extends ThingProperty where
  value : Int
  deriving DecidableEq, Repr, Inhabited

/-- The class `ThingPropertyString`; `value` is the `char value[32]` buffer. -/
structure ThingPropertyString extends ThingProperty where
  value : List Nat
  deriving DecidableEq, Repr, Inhabited

/-- The member `const uint8_t maxLength = 32`. -/
def ThingPropertyString.maxLength (_this : ThingPropertyString) : Nat := 32

/-- The constructor `ThingPropertyBoolean(propertyName, propertyDescription)`; the member
`value` has no initialiser, so its initial content is a parameter. -/
def ThingPropertyBoolean.new (propertyName propertyDescription : Option String)
    (value : Bool) : ThingPropertyBoolean :=
  { ThingProperty.new propertyName propertyDescription ThingPropertyDatatype.BOOLEAN with
    value := value }

/-- The constructor `ThingPropertyNumber(propertyName, propertyDescription)`. -/
def ThingPropertyNumber.new (propertyName propertyDescription : Option String)
    (value : Int) : ThingPropertyNumber :=
  { ThingProperty.new propertyName propertyDescription ThingPropertyDatatype.NUMBER with
    value := value }

/-- The constructor `ThingPropertyString(propertyName, propertyDescription)`; the buffer
has no initialiser, so its initial content is a parameter. -/
def ThingPropertyString.new (propertyName propertyDescription : Option String)
    (value : List Nat) : ThingPropertyString :=
  { ThingProperty.new propertyName propertyDescription ThingPropertyDatatype.STRING with
    value := value }

/-! ## Boolean and Number cells -/

/-- `ThingPropertyBoolean::setValue`. -/
def ThingPropertyBoolean.setValue (this : ThingPropertyBoolean) (newValue : Bool) :
    ThingPropertyBoolean :=
  if newValue ≠ this.value then
    { this with value := newValue, changed := true }
  else
    this

/-- `ThingPropertyBoolean::getValue`. -/
def ThingPropertyBoolean.getValue (this : ThingPropertyBoolean) : Bool :=
  this.value

/-- `ThingPropertyNumber::setValue`. -/
def ThingPropertyNumber.setValue (this : ThingPropertyNumber) (newValue : Int) :
    ThingPropertyNumber :=
  if newValue ≠ this.value then
    { this with value := newValue, changed := true }
  else
    this

/-- `ThingPropertyNumber::getValue`. -/
def ThingPropertyNumber.getValue (this : ThingPropertyNumber) : Int :=
  this.value

/-! ## String cells -/

/-- The C library function `strcmp` on two memory regions, each given by the bytes that may
be read from the pointer on.  Bytes are compared in turn; the first difference decides, two
zero bytes end the comparison with `0`.  Reading past the end of a region is `none`. -/
def strcmp : List Nat → List Nat → Option Int
  | x :: xs, y :: ys =>
    if x ≠ y then some ((x : Int) - (y : Int))
    else if x = 0 then some 0
    else strcmp xs ys
  | _, _ => none

/-- The bytes that `strncpy(dest, src, n)` writes to `dest[0..n-1]`: the bytes of `src` up to
its first zero byte, then zero bytes.  Reading past the end of `src` is `none`. -/
def strncpyBytes : List Nat → Nat → Option (List Nat)
  | _, 0 => some []
  | [], _ + 1 => none
  | x :: xs, n + 1 =>
    if x = 0 then some (List.replicate (n + 1) 0)
    else (strncpyBytes xs n).map (fun written => x :: written)

/-- The C library function `strncpy(dest, src, n)`: the content of `dest` afterwards.
Writing past the end of `dest` is `none`. -/
def strncpy (dest src : List Nat) (n : Nat) : Option (List Nat) :=
  if n ≤ dest.length then
    (strncpyBytes src n).map (fun written => written ++ dest.drop n)
  else
    none

/-- `ThingPropertyString::setValue`.  The argument is `none` for `nullptr` and `some s` for
a pointer to the string with characters `s`, stored in memory as `s ++ [0]`. -/
def ThingPropertyString.setValue (this : ThingPropertyString) (newValue : Option (List Nat)) :
    Option ThingPropertyString :=
  match newValue with
  | none => some this
  | some s =>
    match strcmp (s ++ [0]) this.value with
    | none => none
    | some r =>
      if r ≠ 0 then
        match strncpy this.value (s ++ [0]) (this.maxLength - 1) with
        | none => none
        | some value => some { this with value := value, changed := true }
      else
        some this

/-- `ThingPropertyString::getValue`: the pointer returned is to the buffer itself. -/
def ThingPropertyString.getValue (this : ThingPropertyString) : List Nat :=
  this.value

/-- The string held by a buffer: the bytes before its first zero byte, `none` when the
buffer has no zero byte. -/
def cString : List Nat → Option (List Nat)
  | [] => none
  | x :: xs => if x = 0 then some [] else (cString xs).map (fun s => x :: s)

/-! ## Property cells in memory -/

/-- An object of one of the three concrete property classes. -/
inductive PropertyObject where
  | boolean (p : ThingPropertyBoolean)
  | number (p : ThingPropertyNumber)
  | string (p : ThingPropertyString)
  deriving DecidableEq, Repr, Inhabited

/-- The `ThingProperty` base subobject of a property object. -/
def PropertyObject.base : PropertyObject → ThingProperty
  | PropertyObject.boolean p => p.toThingProperty
  | PropertyObject.number p => p.toThingProperty
  | PropertyObject.string p => p.toThingProperty

/-- The assignment `property->next = q` through a `ThingProperty *`. -/
def PropertyObject.setNext (o : PropertyObject) (q : Ptr) : PropertyObject :=
  match o with
  | PropertyObject.boolean p => PropertyObject.boolean { p with next := q }
  | PropertyObject.number p => PropertyObject.number { p with next := q }
  | PropertyObject.string p => PropertyObject.string { p with next := q }

/-- The property objects of the program, by address. -/
abbrev PropertyHeap := Nat → PropertyObject

/-! ## Devices -/

/-- The class `ThingDevice`; the member defaults are those of the class. -/
structure ThingDevice where
  name : Option String := none
  description : Option String := none
  type : ThingType := ThingType.THING
  next : Ptr := Ptr.null
  propertyCount : Nat := 0
  eventCount : Nat := 0
  actionCount : Nat := 0
  firstProperty : Ptr := Ptr.null
  lastProperty : Ptr := Ptr.null
  deriving DecidableEq, Repr, Inhabited

/-- The constructor `ThingDevice(deviceName, deviceDescription, deviceType)`. -/
def ThingDevice.new (deviceName deviceDescription : Option String) (deviceType : ThingType) :
    ThingDevice :=
  { name := deviceName, description := deviceDescription, type := deviceType }

/-- What a member function of `ThingDevice` leaves behind: the value returned, the device
itself and the property objects. -/
structure DeviceCall (α : Type) where
  ret : α
  device : ThingDevice
  heap : PropertyHeap

/-- `ThingDevice::addProperty`; `property` is the address of the referenced cell. -/
def ThingDevice.addProperty (this : ThingDevice) (heap : PropertyHeap) (property : Nat) :
    DeviceCall Nat :=
  match this.lastProperty with
  | Ptr.null =>
    let count := (this.propertyCount + 1) % 256
    { ret := count
      device := { this with
        firstProperty := Ptr.addr property
        lastProperty := Ptr.addr property
        propertyCount := count }
      heap := heap }
  | Ptr.addr last =>
    let count := (this.propertyCount + 1) % 256
    { ret := count
      device := { this with
        lastProperty := Ptr.addr property
        propertyCount := count }
      heap := Function.update heap last ((heap last).setNext (Ptr.addr property)) }

/-- The `for` loop of `ThingDevice::getProperty` with the given number of iterations left,
`property` being the loop variable.  Dereferencing `nullptr` is `none`. -/
def ThingDevice.getPropertyLoop (heap : PropertyHeap) : Nat → Ptr → Option Ptr
  | 0, property => some property
  | n + 1, property =>
    match property with
    | Ptr.null => none
    | Ptr.addr a =>
      match (heap a).base.next with
      | Ptr.null => some Ptr.null
      | Ptr.addr b => ThingDevice.getPropertyLoop heap n (Ptr.addr b)

/-- `ThingDevice::getProperty`; `propertyIdx` is a `uint8_t`. -/
def ThingDevice.getProperty (this : ThingDevice) (heap : PropertyHeap) (propertyIdx : Nat) :
    Option Ptr :=
  if propertyIdx ≥ this.propertyCount then
    some Ptr.null
  else
    ThingDevice.getPropertyLoop heap propertyIdx this.firstProperty

/-- Successive calls of `addProperty`, one for each cell of the list, in order. -/
def ThingDevice.addProperties (this : ThingDevice) (heap : PropertyHeap) :
    List Nat → ThingDevice × PropertyHeap
  | [] => (this, heap)
  | c :: cs =>
    ThingDevice.addProperties (this.addProperty heap c).device (this.addProperty heap c).heap cs

/-! ## Adapters -/

/-- The device objects of the program, by address. -/
abbrev DeviceHeap := Nat → ThingDevice

/-- The class `ThingAdapter`. -/
structure ThingAdapter where
  name : Option String
  description : Option String
  thingCount : Nat := 0
  firstDevice : Ptr := Ptr.null
  lastDevice : Ptr := Ptr.null
  deriving DecidableEq, Repr, Inhabited

/-- The constructor `ThingAdapter(adapterName, adapterDescription)`. -/
def ThingAdapter.new (adapterName adapterDescription : Option String) : ThingAdapter :=
  { name := adapterName, description := adapterDescription }

/-- What a member function of `ThingAdapter` leaves behind: the value returned, the adapter
itself and the device objects. -/
structure AdapterCall (α : Type) where
  ret : α
  adapter : ThingAdapter
  heap : DeviceHeap

/-- `ThingAdapter::addDevice`; `device` is the address of the referenced device. -/
def ThingAdapter.addDevice (this : ThingAdapter) (heap : DeviceHeap) (device : Nat) :
    AdapterCall Nat :=
  match this.lastDevice with
  | Ptr.null =>
    let count := (this.thingCount + 1) % 256
    { ret := count
      adapter := { this with
        firstDevice := Ptr.addr device
        lastDevice := Ptr.addr device
        thingCount := count }
      heap := heap }
  | Ptr.addr last =>
    let count := (this.thingCount + 1) % 256
    { ret := count
      adapter := { this with
        lastDevice := Ptr.addr device
        thingCount := count }
      heap := Function.update heap last { heap last with next := Ptr.addr device } }

/-- The `for` loop of `ThingAdapter::getDevice` with the given number of iterations left,
`device` being the loop variable.  Dereferencing `nullptr` is `none`. -/
def ThingAdapter.getDeviceLoop (heap : DeviceHeap) : Nat → Ptr → Option Ptr
  | 0, device => some device
  | n + 1, device =>
    match device with
    | Ptr.null => none
    | Ptr.addr a =>
      match (heap a).next with
      | Ptr.null => some Ptr.null
      | Ptr.addr b => ThingAdapter.getDeviceLoop heap n (Ptr.addr b)

/-- `ThingAdapter::getDevice`; `thingIdx` is a `uint8_t`. -/
def ThingAdapter.getDevice (this : ThingAdapter) (heap : DeviceHeap) (thingIdx : Nat) :
    Option Ptr :=
  if thingIdx ≥ this.thingCount then
    some Ptr.null
  else
    ThingAdapter.getDeviceLoop heap thingIdx this.firstDevice

/-- Successive calls of `addDevice`, one for each device of the list, in order. -/
def ThingAdapter.addDevices (this : ThingAdapter) (heap : DeviceHeap) :
    List Nat → ThingAdapter × DeviceHeap
  | [] => (this, heap)
  | d :: ds =>
    ThingAdapter.addDevices (this.addDevice heap d).adapter (this.addDevice heap d).heap ds

/-! ## Linked chains -/

/-- The chain that starts at `p` and follows `nx` visits exactly the addresses of the list,
in order, and then reaches `nullptr`. -/
def Linked (nx : Nat → Ptr) : Ptr → List Nat → Prop
  | p, [] => p = Ptr.null
  | p, x :: xs => p = Ptr.addr x ∧ Linked nx (nx x) xs

/-- The pointer to the last address of a list, `nullptr` for the empty list. -/
def lastPtr (xs : List Nat) : Ptr :=
  match xs.getLast? with
  | none => Ptr.null
  | some l => Ptr.addr l

/-- The `next` pointers of the property objects. -/
def propertyNext (heap : PropertyHeap) : Nat → Ptr :=
  fun a => (heap a).base.next

/-- The `next` pointers of the device objects. -/
def deviceNext (heap : DeviceHeap) : Nat → Ptr :=
  fun a => (heap a).next

/-- The cells of the list are attached to the device, in this order, and to nothing else. -/
def ThingDevice.Holds (this : ThingDevice) (heap : PropertyHeap) (xs : List Nat) : Prop :=
  Linked (propertyNext heap) this.firstProperty xs ∧ this.lastProperty = lastPtr xs ∧
    xs.Nodup ∧ this.propertyCount = xs.length % 256

/-- The devices of the list are attached to the adapter, in this order. -/
def ThingAdapter.Holds (this : ThingAdapter) (heap : DeviceHeap) (xs : List Nat) : Prop :=
  Linked (deviceNext heap) this.firstDevice xs ∧ this.lastDevice = lastPtr xs ∧
    xs.Nodup ∧ this.thingCount = xs.length % 256

/-- Following `nx` from `p` for `n` steps, stopping with `nullptr` as soon as a `next`
pointer is null; the common shape of the two lookup loops. -/
def walk (nx : Nat → Ptr) : Nat → Ptr → Option Ptr
  | 0, p => some p
  | _ + 1, Ptr.null => none
  | n + 1, Ptr.addr a =>
    match nx a with
    | Ptr.null => some Ptr.null
    | Ptr.addr b => walk nx n (Ptr.addr b)

/-! ## Programs and memories -/

/-- The device and the property objects left by attaching the cells of the list, in order,
to a freshly constructed device. -/
def ThingDevice.built (deviceName deviceDescription : Option String) (deviceType : ThingType)
    (heap : PropertyHeap) (cs : List Nat) : ThingDevice × PropertyHeap :=
  (ThingDevice.new deviceName deviceDescription deviceType).addProperties heap cs

/-- The adapter and the device objects left by attaching the devices of the list, in order,
to a freshly constructed adapter. -/
def ThingAdapter.built (adapterName adapterDescription : Option String)
    (heap : DeviceHeap) (ds : List Nat) : ThingAdapter × DeviceHeap :=
  (ThingAdapter.new adapterName adapterDescription).addDevices heap ds

/-- Property objects: every address holds a freshly constructed Number cell. -/
def freshProperties : PropertyHeap :=
  fun _ => PropertyObject.number (ThingPropertyNumber.new none none 0)

/-- Device objects: every address holds a freshly constructed device. -/
def freshDevices : DeviceHeap :=
  fun _ => ThingDevice.new none none ThingType.THING

/-- The objects of a program: property cells and devices, by address. -/
structure Memory where
  properties : PropertyHeap
  devices : DeviceHeap

/-- The call `device.addProperty(property)` for the device at address `d` and the cell at
address `p`. -/
def Memory.attachProperty (m : Memory) (d p : Nat) : Memory :=
  { properties := ((m.devices d).addProperty m.properties p).heap
    devices := Function.update m.devices d ((m.devices d).addProperty m.properties p).device }

/-- The call `setValue(v)` on the Boolean cell at address `p`; `none` when the object there is
not a `ThingPropertyBoolean`. -/
def Memory.setBoolean (m : Memory) (p : Nat) (v : Bool) : Option Memory :=
  match m.properties p with
  | PropertyObject.boolean b =>
    some { m with
      properties := Function.update m.properties p (PropertyObject.boolean (b.setValue v)) }
  | _ => none

/-- The call `getValue()` on the Boolean cell at address `p`, together with its `changed`
member; `none` when the object there is not a `ThingPropertyBoolean`. -/
def Memory.getBoolean (m : Memory) (p : Nat) : Option (Bool × Bool) :=
  match m.properties p with
  | PropertyObject.boolean b => some (b.getValue, b.changed)
  | _ => none

/-- The memory of the lamp example: the device `lamp1` of type `ONOFFSWITCH` constructed at
address `d`, the Boolean cell `on` with value `false` constructed at address `p`, and the
cell attached to the device. -/
def lampMemory (m : Memory) (d p : Nat) : Memory :=
  Memory.attachProperty
    { properties := Function.update m.properties p
        (PropertyObject.boolean (ThingPropertyBoolean.new (some "on") none false))
      devices := Function.update m.devices d
        (ThingDevice.new (some "lamp1") none ThingType.ONOFFSWITCH) }
    d p

/-- The adapter `gw` of the lamp example after `gw.addDevice(lamp1)`. -/
def lampAdapter (m : Memory) (d p : Nat) : AdapterCall Nat :=
  (ThingAdapter.new (some "gw") none).addDevice (lampMemory m d p).devices d

/-- A String cell whose buffer holds 31 zero bytes and then the byte `65`. -/
def openCell : ThingPropertyString :=
  ThingPropertyString.new none none (List.replicate 31 0 ++ [65])

/-- A String cell whose buffer holds the 31 characters `a` and a terminator. -/
def fullCell : ThingPropertyString :=
  ThingPropertyString.new none none (List.replicate 31 97 ++ [0])

/-! ## Calls of `getValue` -/

/-- What a member function of a property cell leaves behind: the value returned and the cell
itself. -/
structure CellCall (α β : Type) where
  ret : α
  cell : β

/-- The call `getValue()` on a Boolean cell: the body is `return this->value;` and assigns
to no member. -/
def ThingPropertyBoolean.getValueCall (this : ThingPropertyBoolean) :
    CellCall Bool ThingPropertyBoolean :=
  { ret := this.value, cell := this }

/-- The call `getValue()` on a Number cell: the body is `return this->value;` and assigns to
no member. -/
def ThingPropertyNumber.getValueCall (this : ThingPropertyNumber) :
    CellCall Int ThingPropertyNumber :=
  { ret := this.value, cell := this }

/-- The call `getValue()` on a String cell: the body is `return this->value;`, a pointer to
the buffer, given here by the bytes it points at, and assigns to no member. -/
def ThingPropertyString.getValueCall (this : ThingPropertyString) :
    CellCall (List Nat) ThingPropertyString :=
  { ret := this.value, cell := this }

/-! ## Lookups with the `return` statement they leave through -/

/-- The three `return` statements of `getProperty` and of `getDevice`: the index check before
the loop, the null check inside the loop, and the `return` after the loop. -/
inductive LookupExit where
  | indexCheck
  | loopCheck
  | loopEnd
  deriving DecidableEq, Repr, Inhabited

/-- The loop of `ThingDevice::getProperty`, as `getPropertyLoop`, together with the `return`
statement taken. -/
def ThingDevice.getPropertyLoopExit (heap : PropertyHeap) : Nat → Ptr → Option (Ptr × LookupExit)
  | 0, property => some (property, LookupExit.loopEnd)
  | n + 1, property =>
    match property with
    | Ptr.null => none
    | Ptr.addr a =>
      match (heap a).base.next with
      | Ptr.null => some (Ptr.null, LookupExit.loopCheck)
      | Ptr.addr b => ThingDevice.getPropertyLoopExit heap n (Ptr.addr b)

/-- `ThingDevice::getProperty`, as `getProperty`, together with the `return` statement
taken. -/
def ThingDevice.getPropertyExit (this : ThingDevice) (heap : PropertyHeap) (propertyIdx : Nat) :
    Option (Ptr × LookupExit) :=
  if propertyIdx ≥ this.propertyCount then
    some (Ptr.null, LookupExit.indexCheck)
  else
    ThingDevice.getPropertyLoopExit heap propertyIdx this.firstProperty

/-- The loop of `ThingAdapter::getDevice`, as `getDeviceLoop`, together with the `return`
statement taken. -/
def ThingAdapter.getDeviceLoopExit (heap : DeviceHeap) : Nat → Ptr → Option (Ptr × LookupExit)
  | 0, device => some (device, LookupExit.loopEnd)
  | n + 1, device =>
    match device with
    | Ptr.null => none
    | Ptr.addr a =>
      match (heap a).next with
      | Ptr.null => some (Ptr.null, LookupExit.loopCheck)
      | Ptr.addr b => ThingAdapter.getDeviceLoopExit heap n (Ptr.addr b)

/-- `ThingAdapter::getDevice`, as `getDevice`, together with the `return` statement taken. -/
def ThingAdapter.getDeviceExit (this : ThingAdapter) (heap : DeviceHeap) (thingIdx : Nat) :
    Option (Ptr × LookupExit) :=
  if thingIdx ≥ this.thingCount then
    some (Ptr.null, LookupExit.indexCheck)
  else
    ThingAdapter.getDeviceLoopExit heap thingIdx this.firstDevice

/-- The common shape of the two loops, as `walk`, together with the `return` statement
taken. -/
def walkExit (nx : Nat → Ptr) : Nat → Ptr → Option (Ptr × LookupExit)
  | 0, p => some (p, LookupExit.loopEnd)
  | _ + 1, Ptr.null => none
  | n + 1, Ptr.addr a =>
    match nx a with
    | Ptr.null => some (Ptr.null, LookupExit.loopCheck)
    | Ptr.addr b => walkExit nx n (Ptr.addr b)

/-! ## Correspondence of the two lists -/

/-- A pointer with its address renamed. -/
def Ptr.rename (f : Nat → Nat) : Ptr → Ptr
  | Ptr.null => Ptr.null
  | Ptr.addr a => Ptr.addr (f a)

/-- The list of an adapter and the list of a device correspond, device addresses being
renamed to cell addresses by `f`: `firstDevice`, `lastDevice`, `thingCount` and the `next`
member of every device agree with `firstProperty`, `lastProperty`, `propertyCount` and the
`next` member of the corresponding cell. -/
def ListsCorrespond (f : Nat → Nat) (a : ThingAdapter) (dh : DeviceHeap) (d : ThingDevice)
    (ph : PropertyHeap) : Prop :=
  a.firstDevice.rename f = d.firstProperty ∧ a.lastDevice.rename f = d.lastProperty ∧
    a.thingCount = d.propertyCount ∧ ∀ x, ((dh x).next).rename f = (ph (f x)).base.next

/-! ## Return values of successive calls -/

/-- The values returned by successive calls of `addProperty`, one for each cell of the list,
in order. -/
def ThingDevice.addPropertiesRets (this : ThingDevice) (heap : PropertyHeap) :
    List Nat → List Nat
  | [] => []
  | c :: cs =>
    (this.addProperty heap c).ret ::
      ThingDevice.addPropertiesRets (this.addProperty heap c).device
        (this.addProperty heap c).heap cs

/-- The values returned by successive calls of `addDevice`, one for each device of the list,
in order. -/
def ThingAdapter.addDevicesRets (this : ThingAdapter) (heap : DeviceHeap) :
    List Nat → List Nat
  | [] => []
  | d :: ds =>
    (this.addDevice heap d).ret ::
      ThingAdapter.addDevicesRets (this.addDevice heap d).adapter (this.addDevice heap d).heap ds

/-- The pointer to the first address of a list, `nullptr` for the empty list. -/
def firstPtr (xs : List Nat) : Ptr :=
  match xs.head? with
  | none => Ptr.null
  | some x => Ptr.addr x

/-! ## String cells and the memory that follows the buffer -/

/-- The memory that can be read from the start of the buffer of a String cell: the 32 bytes
of the buffer and then the first `n` bytes that follow it in memory, `beyond i` being the
byte at distance `i` past the end of the buffer. -/
def ThingPropertyString.region (this : ThingPropertyString) (beyond : Nat → Nat) (n : Nat) :
    List Nat :=
  this.value ++ (List.range n).map beyond

/-- `ThingPropertyString::setValue` in a memory where the bytes `beyond` follow the buffer, so
that a `strcmp` that runs past the buffer reads them.  For a string of characters `s` the
comparison reads at most `s.length + 1` bytes, which is how far the region extends past the
buffer.  The copy is the one of `setValue`: `strncpy` over the first `maxLength - 1` bytes. -/
def ThingPropertyString.setValueIn (this : ThingPropertyString) (beyond : Nat → Nat)
    (newValue : Option (List Nat)) : Option ThingPropertyString :=
  match newValue with
  | none => some this
  | some s =>
    match strcmp (s ++ [0]) (this.region beyond (s.length + 1)) with
    | none => none
    | some r =>
      if r ≠ 0 then
        match strncpy this.value (s ++ [0]) (this.maxLength - 1) with
        | none => none
        | some value => some { this with value := value, changed := true }
      else
        some this

/-- A String cell whose buffer holds 32 bytes `7` and no terminator. -/
def denseCell : ThingPropertyString :=
  ThingPropertyString.new none none (List.replicate 32 7)

/-! ## Lemmas on chains -/

theorem getPropertyLoop_eq_walk (heap : PropertyHeap) (n : Nat) (p : Ptr) :
    ThingDevice.getPropertyLoop heap n p = walk (propertyNext heap) n p := by
  induction n generalizing p with
  | zero => rfl
  | succ n ih =>
    cases p with
    | null => rfl
    | addr a =>
      simp only [ThingDevice.getPropertyLoop, walk, propertyNext]
      cases h : (heap a).base.next with
      | null => rfl
      | addr b => simpa [propertyNext] using ih (Ptr.addr b)

theorem getDeviceLoop_eq_walk (heap : DeviceHeap) (n : Nat) (p : Ptr) :
    ThingAdapter.getDeviceLoop heap n p = walk (deviceNext heap) n p := by
  induction n generalizing p with
  | zero => rfl
  | succ n ih =>
    cases p with
    | null => rfl
    | addr a =>
      simp only [ThingAdapter.getDeviceLoop, walk, deviceNext]
      cases h : (heap a).next with
      | null => rfl
      | addr b => simpa [deviceNext] using ih (Ptr.addr b)

/-- Walking `i` steps along a chain reaches its `i`-th address. -/
theorem walk_linked (nx : Nat → Ptr) :
    ∀ (xs : List Nat) (p : Ptr) (i c : Nat), Linked nx p xs → xs[i]? = some c →
      walk nx i p = some (Ptr.addr c)
  | [], _, _, _, _, h => by simp at h
  | x :: xs, p, 0, c, hl, h => by
    have hx : x = c := by simpa using h
    simp [walk, hl.1, hx]
  | x :: xs, p, i + 1, c, hl, h => by
    have hc : xs[i]? = some c := by simpa using h
    obtain ⟨hp, hrest⟩ := hl
    subst hp
    cases xs with
    | nil => simp at hc
    | cons y ys =>
      have hy : nx x = Ptr.addr y := hrest.1
      simp only [walk, hy]
      exact walk_linked nx (y :: ys) (Ptr.addr y) i c (hy ▸ hrest) hc

/-- Pointing the last address of a chain at a fresh address extends the chain by it. -/
theorem linked_append (nx : Nat → Ptr) (c : Nat) (hc : nx c = Ptr.null) :
    ∀ (xs : List Nat) (p : Ptr) (l : Nat), Linked nx p xs → xs.Nodup → xs.getLast? = some l →
      c ∉ xs → Linked (Function.update nx l (Ptr.addr c)) p (xs ++ [c])
  | [], _, _, _, _, hl, _ => by simp at hl
  | [x], p, l, h, _, hl, hcx => by
    have hxl : x = l := by simpa using hl
    subst hxl
    have hcne : c ≠ x := by simpa using hcx
    refine ⟨h.1, ?_, ?_⟩
    · simp
    · show Function.update nx x (Ptr.addr c) c = Ptr.null
      rw [Function.update_noteq hcne]
      exact hc
  | x :: y :: ys, p, l, h, hnd, hl, hcx => by
    have hl' : (y :: ys).getLast? = some l := by simpa [List.getLast?_cons_cons] using hl
    have hlmem : l ∈ y :: ys := List.mem_of_getLast?_eq_some hl'
    have hxnot : x ∉ y :: ys := (List.nodup_cons.mp hnd).1
    have hxl : x ≠ l := fun e => hxnot (e ▸ hlmem)
    have hc' : c ∉ y :: ys := fun hm => hcx (List.mem_cons_of_mem x hm)
    refine ⟨h.1, ?_⟩
    show Linked _ (Function.update nx l (Ptr.addr c) x) ((y :: ys) ++ [c])
    rw [Function.update_noteq hxl]
    exact linked_append nx c hc (y :: ys) (nx x) l h.2 (List.nodup_cons.mp hnd).2 hl' hc'

theorem lastPtr_append (xs : List Nat) (c : Nat) : lastPtr (xs ++ [c]) = Ptr.addr c := by
  simp [lastPtr]

theorem lastPtr_eq_null (xs : List Nat) (h : lastPtr xs = Ptr.null) : xs = [] := by
  unfold lastPtr at h
  cases hl : xs.getLast? with
  | none => simpa using hl
  | some l => simp [hl] at h

theorem lastPtr_eq_addr (xs : List Nat) (l : Nat) (h : lastPtr xs = Ptr.addr l) :
    xs.getLast? = some l := by
  unfold lastPtr at h
  cases hl : xs.getLast? with
  | none => simp [hl] at h
  | some m =>
    simp only [hl, Ptr.addr.injEq] at h
    rw [h]

/-! ## Lemmas on devices -/

theorem setNext_base_next (o : PropertyObject) (q : Ptr) : (o.setNext q).base.next = q := by
  cases o <;> rfl

theorem propertyNext_update (heap : PropertyHeap) (l : Nat) (q : Ptr) :
    propertyNext (Function.update heap l ((heap l).setNext q)) =
      Function.update (propertyNext heap) l q := by
  funext a
  by_cases h : a = l
  · subst h
    simp [propertyNext, setNext_base_next]
  · simp [propertyNext, Function.update_noteq h]

theorem deviceNext_update (heap : DeviceHeap) (l : Nat) (q : Ptr) :
    deviceNext (Function.update heap l { heap l with next := q }) =
      Function.update (deviceNext heap) l q := by
  funext a
  by_cases h : a = l
  · subst h
    simp [deviceNext]
  · simp [deviceNext, Function.update_noteq h]

theorem count_succ_mod (n : Nat) : (n % 256 + 1) % 256 = (n + 1) % 256 := by
  omega

/-- A freshly constructed device holds no cell. -/
theorem ThingDevice.device_holds_new (deviceName deviceDescription : Option String)
    (deviceType : ThingType) (heap : PropertyHeap) :
    (ThingDevice.new deviceName deviceDescription deviceType).Holds heap [] := by
  refine ⟨?_, ?_, List.nodup_nil, ?_⟩ <;> rfl

/-- One `addProperty` call on a device that holds `xs`, for a fresh cell `c`. -/
theorem ThingDevice.addProperty_holds (this : ThingDevice) (heap : PropertyHeap)
    (xs : List Nat) (c : Nat) (h : this.Holds heap xs) (hc : c ∉ xs)
    (hfresh : (heap c).base.next = Ptr.null) :
    (this.addProperty heap c).device.Holds (this.addProperty heap c).heap (xs ++ [c]) ∧
      (this.addProperty heap c).ret = (xs.length + 1) % 256 ∧
      (this.addProperty heap c).device.propertyCount = (xs.length + 1) % 256 ∧
      ∀ a, a ∉ xs → (this.addProperty heap c).heap a = heap a := by
  obtain ⟨hlink, hlast, hnd, hcount⟩ := h
  have hnd' : (xs ++ [c]).Nodup := by
    rw [List.nodup_append]
    refine ⟨hnd, List.nodup_singleton c, ?_⟩
    intro a ha hac
    have : a = c := by simpa using hac
    exact hc (this ▸ ha)
  cases hl : this.lastProperty with
  | null =>
    have hxs : xs = [] := lastPtr_eq_null xs (hlast ▸ hl)
    subst hxs
    simp only [ThingDevice.addProperty, hl, hcount]
    refine ⟨⟨?_, ?_, ?_, ?_⟩, ?_, ?_, ?_⟩
    · exact ⟨rfl, hfresh⟩
    · rfl
    · simp
    · rfl
    · rfl
    · trivial
    · intro a _
      trivial
  | addr l =>
    have hget : xs.getLast? = some l := lastPtr_eq_addr xs l (hlast ▸ hl)
    have hlmem : l ∈ xs := List.mem_of_getLast?_eq_some hget
    simp only [ThingDevice.addProperty, hl, hcount, count_succ_mod]
    refine ⟨⟨?_, ?_, hnd', ?_⟩, ?_, ?_, ?_⟩
    · show Linked (propertyNext (Function.update heap l ((heap l).setNext (Ptr.addr c))))
        this.firstProperty (xs ++ [c])
      rw [propertyNext_update]
      exact linked_append (propertyNext heap) c hfresh xs this.firstProperty l hlink hnd hget hc
    · exact (lastPtr_append xs c).symm
    · simp
    · trivial
    · trivial
    · intro a ha
      have hal : a ≠ l := fun e => ha (e ▸ hlmem)
      exact Function.update_noteq hal _ _

/-- A sequence of `addProperty` calls on a device that holds `xs`, for distinct fresh cells. -/
theorem ThingDevice.addProperties_holds :
    ∀ (cs : List Nat) (this : ThingDevice) (heap : PropertyHeap) (xs : List Nat),
      this.Holds heap xs → (xs ++ cs).Nodup → (∀ c ∈ cs, (heap c).base.next = Ptr.null) →
      (this.addProperties heap cs).1.Holds (this.addProperties heap cs).2 (xs ++ cs)
  | [], this, heap, xs, h, _, _ => by simpa [ThingDevice.addProperties] using h
  | c :: cs, this, heap, xs, h, hnd, hfresh => by
    have hcx : c ∉ xs := by
      intro hm
      have := (List.nodup_append.mp hnd).2.2
      exact this hm (List.mem_cons_self c cs)
    have hccs : c ∉ cs := (List.nodup_cons.mp (List.nodup_append.mp hnd).2.1).1
    obtain ⟨hstep, _, _, hframe⟩ :=
      ThingDevice.addProperty_holds this heap xs c h hcx (hfresh c (List.mem_cons_self c cs))
    have hnd' : ((xs ++ [c]) ++ cs).Nodup := by simpa using hnd
    have hfresh' : ∀ a ∈ cs, ((this.addProperty heap c).heap a).base.next = Ptr.null := by
      intro a ha
      have hax : a ∉ xs := by
        intro hm
        exact (List.nodup_append.mp hnd).2.2 hm (List.mem_cons_of_mem c ha)
      rw [hframe a hax]
      exact hfresh a (List.mem_cons_of_mem c ha)
    have := ThingDevice.addProperties_holds cs (this.addProperty heap c).device
      (this.addProperty heap c).heap (xs ++ [c]) hstep hnd' hfresh'
    simpa [ThingDevice.addProperties] using this

/-- Lookup in a device that holds `xs`: below the counter, the cell at that position. -/
theorem ThingDevice.getProperty_holds_lt (this : ThingDevice) (heap : PropertyHeap)
    (xs : List Nat) (i c : Nat) (h : this.Holds heap xs) (hi : i < this.propertyCount)
    (hxs : xs[i]? = some c) : this.getProperty heap i = some (Ptr.addr c) := by
  unfold ThingDevice.getProperty
  rw [if_neg (Nat.not_le.mpr hi), getPropertyLoop_eq_walk]
  exact walk_linked (propertyNext heap) xs this.firstProperty i c h.1 hxs

/-- Lookup in a device: at or above the counter, `nullptr`. -/
theorem ThingDevice.getProperty_ge (this : ThingDevice) (heap : PropertyHeap) (i : Nat)
    (hi : this.propertyCount ≤ i) : this.getProperty heap i = some Ptr.null := by
  unfold ThingDevice.getProperty
  rw [if_pos hi]

/-! ## Lemmas on adapters -/

/-- A freshly constructed adapter holds no device. -/
theorem ThingAdapter.adapter_holds_new (adapterName adapterDescription : Option String)
    (heap : DeviceHeap) : (ThingAdapter.new adapterName adapterDescription).Holds heap [] := by
  refine ⟨?_, ?_, List.nodup_nil, ?_⟩ <;> rfl

/-- One `addDevice` call on an adapter that holds `xs`, for a fresh device `d`. -/
theorem ThingAdapter.addDevice_holds (this : ThingAdapter) (heap : DeviceHeap)
    (xs : List Nat) (d : Nat) (h : this.Holds heap xs) (hd : d ∉ xs)
    (hfresh : (heap d).next = Ptr.null) :
    (this.addDevice heap d).adapter.Holds (this.addDevice heap d).heap (xs ++ [d]) ∧
      (this.addDevice heap d).ret = (xs.length + 1) % 256 ∧
      (this.addDevice heap d).adapter.thingCount = (xs.length + 1) % 256 ∧
      ∀ a, a ∉ xs → (this.addDevice heap d).heap a = heap a := by
  obtain ⟨hlink, hlast, hnd, hcount⟩ := h
  have hnd' : (xs ++ [d]).Nodup := by
    rw [List.nodup_append]
    refine ⟨hnd, List.nodup_singleton d, ?_⟩
    intro a ha had
    have : a = d := by simpa using had
    exact hd (this ▸ ha)
  cases hl : this.lastDevice with
  | null =>
    have hxs : xs = [] := lastPtr_eq_null xs (hlast ▸ hl)
    subst hxs
    simp only [ThingAdapter.addDevice, hl, hcount]
    refine ⟨⟨?_, ?_, ?_, ?_⟩, ?_, ?_, ?_⟩
    · exact ⟨rfl, hfresh⟩
    · rfl
    · simp
    · rfl
    · rfl
    · trivial
    · intro a _
      trivial
  | addr l =>
    have hget : xs.getLast? = some l := lastPtr_eq_addr xs l (hlast ▸ hl)
    have hlmem : l ∈ xs := List.mem_of_getLast?_eq_some hget
    simp only [ThingAdapter.addDevice, hl, hcount, count_succ_mod]
    refine ⟨⟨?_, ?_, hnd', ?_⟩, ?_, ?_, ?_⟩
    · show Linked (deviceNext (Function.update heap l { heap l with next := Ptr.addr d }))
        this.firstDevice (xs ++ [d])
      rw [deviceNext_update]
      exact linked_append (deviceNext heap) d hfresh xs this.firstDevice l hlink hnd hget hd
    · exact (lastPtr_append xs d).symm
    · simp
    · trivial
    · trivial
    · intro a ha
      have hal : a ≠ l := fun e => ha (e ▸ hlmem)
      exact Function.update_noteq hal _ _

/-- A sequence of `addDevice` calls on an adapter that holds `xs`, for distinct fresh devices. -/
theorem ThingAdapter.addDevices_holds :
    ∀ (ds : List Nat) (this : ThingAdapter) (heap : DeviceHeap) (xs : List Nat),
      this.Holds heap xs → (xs ++ ds).Nodup → (∀ d ∈ ds, (heap d).next = Ptr.null) →
      (this.addDevices heap ds).1.Holds (this.addDevices heap ds).2 (xs ++ ds)
  | [], this, heap, xs, h, _, _ => by simpa [ThingAdapter.addDevices] using h
  | d :: ds, this, heap, xs, h, hnd, hfresh => by
    have hdx : d ∉ xs := by
      intro hm
      exact (List.nodup_append.mp hnd).2.2 hm (List.mem_cons_self d ds)
    obtain ⟨hstep, _, _, hframe⟩ :=
      ThingAdapter.addDevice_holds this heap xs d h hdx (hfresh d (List.mem_cons_self d ds))
    have hnd' : ((xs ++ [d]) ++ ds).Nodup := by simpa using hnd
    have hfresh' : ∀ a ∈ ds, ((this.addDevice heap d).heap a).next = Ptr.null := by
      intro a ha
      have hax : a ∉ xs := by
        intro hm
        exact (List.nodup_append.mp hnd).2.2 hm (List.mem_cons_of_mem d ha)
      rw [hframe a hax]
      exact hfresh a (List.mem_cons_of_mem d ha)
    have := ThingAdapter.addDevices_holds ds (this.addDevice heap d).adapter
      (this.addDevice heap d).heap (xs ++ [d]) hstep hnd' hfresh'
    simpa [ThingAdapter.addDevices] using this

/-- A sequence of `addDevice` calls leaves the devices that are not attached as they were. -/
theorem ThingAdapter.addDevices_frame :
    ∀ (ds : List Nat) (this : ThingAdapter) (heap : DeviceHeap) (xs : List Nat),
      this.Holds heap xs → (xs ++ ds).Nodup → (∀ d ∈ ds, (heap d).next = Ptr.null) →
      ∀ a, a ∉ xs ++ ds → (this.addDevices heap ds).2 a = heap a
  | [], _, _, _, _, _, _, _, _ => rfl
  | d :: ds, this, heap, xs, h, hnd, hfresh, a, ha => by
    have hdx : d ∉ xs := by
      intro hm
      exact (List.nodup_append.mp hnd).2.2 hm (List.mem_cons_self d ds)
    obtain ⟨hstep, _, _, hframe⟩ :=
      ThingAdapter.addDevice_holds this heap xs d h hdx (hfresh d (List.mem_cons_self d ds))
    have hnd' : ((xs ++ [d]) ++ ds).Nodup := by simpa using hnd
    have hfresh' : ∀ b ∈ ds, ((this.addDevice heap d).heap b).next = Ptr.null := by
      intro b hb
      have hbx : b ∉ xs := by
        intro hm
        exact (List.nodup_append.mp hnd).2.2 hm (List.mem_cons_of_mem d hb)
      rw [hframe b hbx]
      exact hfresh b (List.mem_cons_of_mem d hb)
    have ha' : a ∉ (xs ++ [d]) ++ ds := by simpa using ha
    have hax : a ∉ xs := fun hm => ha (List.mem_append_left _ hm)
    have := ThingAdapter.addDevices_frame ds (this.addDevice heap d).adapter
      (this.addDevice heap d).heap (xs ++ [d]) hstep hnd' hfresh' a ha'
    simp only [ThingAdapter.addDevices]
    rw [this, hframe a hax]

/-- Lookup in an adapter that holds `xs`: below the counter, the device at that position. -/
theorem ThingAdapter.getDevice_holds_lt (this : ThingAdapter) (heap : DeviceHeap)
    (xs : List Nat) (i d : Nat) (h : this.Holds heap xs) (hi : i < this.thingCount)
    (hxs : xs[i]? = some d) : this.getDevice heap i = some (Ptr.addr d) := by
  unfold ThingAdapter.getDevice
  rw [if_neg (Nat.not_le.mpr hi), getDeviceLoop_eq_walk]
  exact walk_linked (deviceNext heap) xs this.firstDevice i d h.1 hxs

/-- Lookup in an adapter: at or above the counter, `nullptr`. -/
theorem ThingAdapter.getDevice_ge (this : ThingAdapter) (heap : DeviceHeap) (i : Nat)
    (hi : this.thingCount ≤ i) : this.getDevice heap i = some Ptr.null := by
  unfold ThingAdapter.getDevice
  rw [if_pos hi]

/-- The state reached from a fresh device by attaching distinct fresh cells. -/
theorem ThingDevice.device_holds_attached (deviceName deviceDescription : Option String)
    (deviceType : ThingType) (heap : PropertyHeap) (cs : List Nat) (hnd : cs.Nodup)
    (hfresh : ∀ c ∈ cs, (heap c).base.next = Ptr.null) :
    ((ThingDevice.new deviceName deviceDescription deviceType).addProperties heap cs).1.Holds
      ((ThingDevice.new deviceName deviceDescription deviceType).addProperties heap cs).2 cs := by
  have := ThingDevice.addProperties_holds cs _ heap []
    (ThingDevice.device_holds_new deviceName deviceDescription deviceType heap) (by simpa using hnd) hfresh
  simpa using this

/-- The state reached from a fresh adapter by attaching distinct fresh devices. -/
theorem ThingAdapter.adapter_holds_attached (adapterName adapterDescription : Option String)
    (heap : DeviceHeap) (ds : List Nat) (hnd : ds.Nodup)
    (hfresh : ∀ d ∈ ds, (heap d).next = Ptr.null) :
    ((ThingAdapter.new adapterName adapterDescription).addDevices heap ds).1.Holds
      ((ThingAdapter.new adapterName adapterDescription).addDevices heap ds).2 ds := by
  have := ThingAdapter.addDevices_holds ds _ heap []
    (ThingAdapter.adapter_holds_new adapterName adapterDescription heap) (by simpa using hnd) hfresh
  simpa using this

/-! ## Lemmas on strings -/

/-- Comparing a buffer with the string it holds gives `0`. -/
theorem strcmp_cString :
    ∀ (buf c : List Nat), cString buf = some c → strcmp (c ++ [0]) buf = some 0
  | [], _, h => by simp [cString] at h
  | y :: ys, c, h => by
    by_cases hy : y = 0
    · subst hy
      have hc : c = [] := by simpa [cString] using h.symm
      subst hc
      simp [strcmp]
    · simp only [cString, if_neg hy, Option.map_eq_some'] at h
      obtain ⟨c', hc', rfl⟩ := h
      have ih := strcmp_cString ys c' hc'
      simp [strcmp, hy, ih]

/-- Comparing a terminated string with a buffer that holds a string never reads past it. -/
theorem strcmp_terminated :
    ∀ (buf s c : List Nat), cString buf = some c → ∃ r, strcmp (s ++ [0]) buf = some r
  | [], _, _, h => by simp [cString] at h
  | y :: ys, [], c, _ => by
    by_cases hy : (0 : Nat) = y
    · exact ⟨0, by simp [strcmp, hy.symm]⟩
    · exact ⟨((0 : Nat) : Int) - (y : Int), by simp [strcmp, hy]⟩
  | y :: ys, x :: xs, c, h => by
    by_cases hxy : x = y
    · subst hxy
      by_cases hx : x = 0
      · exact ⟨0, by simp [strcmp, hx]⟩
      · simp only [cString, if_neg hx, Option.map_eq_some'] at h
        obtain ⟨c', hc', _⟩ := h
        obtain ⟨r, hr⟩ := strcmp_terminated ys xs c' hc'
        exact ⟨r, by simp [strcmp, hx, hr]⟩
    · exact ⟨(x : Int) - (y : Int), by simp [strcmp, hxy]⟩

/-- The string held by a buffer that starts with nonzero bytes. -/
theorem cString_append :
    ∀ (s t : List Nat), (∀ b ∈ s, b ≠ 0) →
      cString (s ++ t) = (cString t).map (fun u => s ++ u)
  | [], t, _ => by simp
  | x :: xs, t, hnz => by
    have hx : x ≠ 0 := hnz x (List.mem_cons_self x xs)
    have ih := cString_append xs t (fun b hb => hnz b (List.mem_cons_of_mem x hb))
    simp [cString, hx, ih, Option.map_map, Function.comp_def]

theorem cString_replicate_zero (k : Nat) (t : List Nat) :
    cString (List.replicate (k + 1) 0 ++ t) = some [] := by
  simp [List.replicate_succ, cString]

/-- What `strncpy` writes for any source string: its first `n` bytes, then zero bytes. -/
theorem strncpyBytes_take :
    ∀ (t : List Nat) (n : Nat), (∀ b ∈ t, b ≠ 0) →
      strncpyBytes (t ++ [0]) n = some (t.take n ++ List.replicate (n - t.length) 0)
  | _, 0, _ => by simp [strncpyBytes]
  | [], n + 1, _ => by simp [strncpyBytes]
  | x :: xs, n + 1, hnz => by
    have hx : x ≠ 0 := hnz x (List.mem_cons_self x xs)
    have ih := strncpyBytes_take xs n (fun b hb => hnz b (List.mem_cons_of_mem x hb))
    simp [strncpyBytes, hx, ih]

/-- The comparison reads past the buffer exactly when the whole buffer is a beginning of the
string compared with it. -/
theorem strcmp_eq_none :
    ∀ (buf t : List Nat), (∀ b ∈ t, b ≠ 0) → (strcmp (t ++ [0]) buf = none ↔ buf <+: t)
  | [], t, _ => by
    cases t <;> simp [strcmp]
  | y :: ys, [], _ => by
    by_cases hy : (0 : Nat) = y
    · simp [strcmp, hy.symm]
    · simp [strcmp, hy]
  | y :: ys, x :: xs, hnz => by
    have hx : x ≠ 0 := hnz x (List.mem_cons_self x xs)
    have ih := strcmp_eq_none ys xs (fun b hb => hnz b (List.mem_cons_of_mem x hb))
    by_cases hxy : x = y
    · subst hxy
      simp [strcmp, hx, ih, List.cons_prefix_cons]
    · have hyx : ¬ y = x := fun e => hxy e.symm
      simp [strcmp, hxy, hyx, List.cons_prefix_cons]

/-- A buffer holds a string exactly when it has a zero byte. -/
theorem cString_ne_none : ∀ (buf : List Nat), cString buf ≠ none ↔ 0 ∈ buf
  | [] => by simp [cString]
  | x :: xs => by
    have ih := cString_ne_none xs
    by_cases hx : x = 0
    · simp [cString, hx]
    · have hx' : ¬ 0 = x := fun e => hx e.symm
      have : cString xs = none ↔ 0 ∉ xs := by
        constructor
        · intro h hm
          exact (ih.mpr hm) h
        · intro h
          by_contra hne
          exact h (ih.mp hne)
      simp [cString, hx, hx', this]

/-- The content of the buffer after `strncpy` of a string over its first 31 bytes. -/
theorem strncpy_value (v t : List Nat) (hlen : 31 ≤ v.length) (hnz : ∀ b ∈ t, b ≠ 0) :
    strncpy v (t ++ [0]) 31 =
      some (t.take 31 ++ List.replicate (31 - t.length) 0 ++ v.drop 31) := by
  unfold strncpy
  rw [if_pos hlen, strncpyBytes_take t 31 hnz]
  rfl

/-- The byte at position 31 of the buffer after `strncpy` over its first 31 bytes. -/
theorem written_getElem? (v t : List Nat) :
    (t.take 31 ++ List.replicate (31 - t.length) 0 ++ v.drop 31)[31]? = v[31]? := by
  have hw : (t.take 31 ++ List.replicate (31 - t.length) 0).length = 31 := by
    simp only [List.length_append, List.length_take, List.length_replicate]
    omega
  rw [List.getElem?_append_right (by omega), hw]
  simp

/-- The buffer after `strncpy` of a string over its first 31 bytes has a zero byte exactly
when the string is shorter than 31 bytes or the last byte of the buffer was zero. -/
theorem written_terminated (v t : List Nat) (hlen : v.length = 32) (hnz : ∀ b ∈ t, b ≠ 0) :
    0 ∈ t.take 31 ++ List.replicate (31 - t.length) 0 ++ v.drop 31 ↔
      t.length < 31 ∨ v[31]? = some 0 := by
  have hdrop : (v.drop 31).length = 1 := by simp [hlen]
  obtain ⟨x, hx⟩ := List.length_eq_one.mp hdrop
  have h31 : v[31]? = some x := by
    have : (v.drop 31)[0]? = some x := by rw [hx]; rfl
    simpa using this
  have htake : 0 ∉ t.take 31 := fun hm => hnz 0 (List.mem_of_mem_take hm) rfl
  rw [hx, h31]
  simp only [List.mem_append, List.mem_replicate, List.mem_singleton, htake, false_or,
    Option.some.injEq]
  constructor
  · rintro (⟨hk, _⟩ | h0)
    · left; omega
    · right; exact h0.symm
  · rintro (hk | h0)
    · left; exact ⟨by omega, trivial⟩
    · right; exact h0.symm

/-! ## Helpers for the claims -/

theorem lt_length_of_getElem? (xs : List Nat) (i c : Nat) (h : xs[i]? = some c) :
    i < xs.length := by
  by_contra hlt
  rw [List.getElem?_eq_none (Nat.le_of_not_lt hlt)] at h
  exact Option.noConfusion h

theorem getElem?_of_lt_length (xs : List Nat) (i : Nat) (h : i < xs.length) :
    ∃ c, xs[i]? = some c :=
  ⟨xs[i], List.getElem?_eq_getElem h⟩

theorem ThingDevice.device_built_holds (deviceName deviceDescription : Option String)
    (deviceType : ThingType) (heap : PropertyHeap) (cs : List Nat) (hnd : cs.Nodup)
    (hfresh : ∀ c ∈ cs, (heap c).base.next = Ptr.null) :
    (ThingDevice.built deviceName deviceDescription deviceType heap cs).1.Holds
      (ThingDevice.built deviceName deviceDescription deviceType heap cs).2 cs :=
  ThingDevice.device_holds_attached deviceName deviceDescription deviceType heap cs hnd hfresh

theorem ThingAdapter.adapter_built_holds (adapterName adapterDescription : Option String)
    (heap : DeviceHeap) (ds : List Nat) (hnd : ds.Nodup)
    (hfresh : ∀ d ∈ ds, (heap d).next = Ptr.null) :
    (ThingAdapter.built adapterName adapterDescription heap ds).1.Holds
      (ThingAdapter.built adapterName adapterDescription heap ds).2 ds :=
  ThingAdapter.adapter_holds_attached adapterName adapterDescription heap ds hnd hfresh

/-- Lookup in a device that holds `xs`, at any index: the cell at that position when the
index is below the counter, `nullptr` otherwise. -/
theorem ThingDevice.getProperty_holds (this : ThingDevice) (heap : PropertyHeap)
    (xs : List Nat) (i : Nat) (h : this.Holds heap xs) :
    (i < xs.length % 256 → ∃ c, xs[i]? = some c ∧ this.getProperty heap i = some (Ptr.addr c)) ∧
      (xs.length % 256 ≤ i → this.getProperty heap i = some Ptr.null) := by
  have hcount : this.propertyCount = xs.length % 256 := h.2.2.2
  constructor
  · intro hi
    have hlen : i < xs.length := lt_of_lt_of_le hi (Nat.mod_le _ _)
    obtain ⟨c, hc⟩ := getElem?_of_lt_length xs i hlen
    exact ⟨c, hc, ThingDevice.getProperty_holds_lt this heap xs i c h (hcount ▸ hi) hc⟩
  · intro hi
    exact ThingDevice.getProperty_ge this heap i (hcount ▸ hi)

/-- Lookup in an adapter that holds `xs`, at any index. -/
theorem ThingAdapter.getDevice_holds (this : ThingAdapter) (heap : DeviceHeap)
    (xs : List Nat) (i : Nat) (h : this.Holds heap xs) :
    (i < xs.length % 256 → ∃ d, xs[i]? = some d ∧ this.getDevice heap i = some (Ptr.addr d)) ∧
      (xs.length % 256 ≤ i → this.getDevice heap i = some Ptr.null) := by
  have hcount : this.thingCount = xs.length % 256 := h.2.2.2
  constructor
  · intro hi
    have hlen : i < xs.length := lt_of_lt_of_le hi (Nat.mod_le _ _)
    obtain ⟨d, hd⟩ := getElem?_of_lt_length xs i hlen
    exact ⟨d, hd, ThingAdapter.getDevice_holds_lt this heap xs i d h (hcount ▸ hi) hd⟩
  · intro hi
    exact ThingAdapter.getDevice_ge this heap i (hcount ▸ hi)

/-! ## C1 : lookup after appending cells to a device -/

/-- C1, as stated, fails at 256 cells: the cells at addresses `0, ..., 255` are distinct and
freshly constructed, the first one appended is the cell at address `0`, and after the 256
`addProperty` calls `propertyCount` has wrapped to `0`, so that `getProperty(0)` returns
`nullptr` instead of the first cell. -/
theorem C1_counterexample :
    (List.range 256).Nodup ∧
      (∀ c ∈ List.range 256, (freshProperties c).base.next = Ptr.null) ∧
      (List.range 256)[0]? = some 0 ∧
      (ThingDevice.built none none ThingType.THING freshProperties (List.range 256)).1.propertyCount
        = 0 ∧
      (ThingDevice.built none none ThingType.THING freshProperties (List.range 256)).1.getProperty
        (ThingDevice.built none none ThingType.THING freshProperties (List.range 256)).2 0
        = some Ptr.null ∧
      (ThingDevice.built none none ThingType.THING freshProperties (List.range 256)).1.getProperty
        (ThingDevice.built none none ThingType.THING freshProperties (List.range 256)).2 0
        ≠ some (Ptr.addr 0) := by
  have hfresh : ∀ c ∈ List.range 256, (freshProperties c).base.next = Ptr.null :=
    fun _ _ => rfl
  have h := ThingDevice.device_built_holds none none ThingType.THING freshProperties (List.range 256)
    (List.nodup_range 256) hfresh
  have hcount : (ThingDevice.built none none ThingType.THING freshProperties
      (List.range 256)).1.propertyCount = 0 := by
    rw [h.2.2.2, List.length_range]
  have hget := ThingDevice.getProperty_ge _
    (ThingDevice.built none none ThingType.THING freshProperties (List.range 256)).2 0
    (Nat.le_of_eq hcount)
  refine ⟨List.nodup_range 256, hfresh, by simp, hcount, hget, ?_⟩
  rw [hget]
  simp

/-- C1 (amended): for every N ≤ 255 and every sequence of N distinct, freshly constructed
property cells appended with `addProperty` to a freshly constructed `ThingDevice`,
`getProperty(i)` returns the `i`-th appended cell for every `0 ≤ i < N`, and `getProperty(i)`
returns `nullptr` for every 8-bit index `i ≥ N`. -/
theorem C1_getProperty_after_appends (deviceName deviceDescription : Option String)
    (deviceType : ThingType) (heap : PropertyHeap) (cs : List Nat) (hnd : cs.Nodup)
    (hfresh : ∀ c ∈ cs, (heap c).base.next = Ptr.null) (hN : cs.length ≤ 255) :
    (∀ i c, cs[i]? = some c →
      (ThingDevice.built deviceName deviceDescription deviceType heap cs).1.getProperty
        (ThingDevice.built deviceName deviceDescription deviceType heap cs).2 i
        = some (Ptr.addr c)) ∧
    (∀ i, cs.length ≤ i → i < 256 →
      (ThingDevice.built deviceName deviceDescription deviceType heap cs).1.getProperty
        (ThingDevice.built deviceName deviceDescription deviceType heap cs).2 i
        = some Ptr.null) := by
  have h := ThingDevice.device_built_holds deviceName deviceDescription deviceType heap cs hnd hfresh
  have hmod : cs.length % 256 = cs.length := Nat.mod_eq_of_lt (by omega)
  constructor
  · intro i c hc
    have hi : i < cs.length := lt_length_of_getElem? cs i c hc
    obtain ⟨c', hc', hget⟩ := (ThingDevice.getProperty_holds _ _ cs i h).1 (hmod.symm ▸ hi)
    have hcc : c' = c := Option.some.inj (hc'.symm.trans hc)
    rw [hget, hcc]
  · intro i hi _
    exact (ThingDevice.getProperty_holds _ _ cs i h).2 (hmod.symm ▸ hi)

/-- C1, witness: three cells at addresses `7, 3, 5`; index `1` finds the cell at address `3`
and index `3` finds nothing. -/
theorem C1_getProperty_after_appends_witness :
    (ThingDevice.built none none ThingType.THING freshProperties [7, 3, 5]).1.getProperty
        (ThingDevice.built none none ThingType.THING freshProperties [7, 3, 5]).2 1
        = some (Ptr.addr 3) ∧
      (ThingDevice.built none none ThingType.THING freshProperties [7, 3, 5]).1.getProperty
        (ThingDevice.built none none ThingType.THING freshProperties [7, 3, 5]).2 3
        = some Ptr.null :=
  ⟨(C1_getProperty_after_appends none none ThingType.THING freshProperties [7, 3, 5]
      (by decide) (fun _ _ => rfl) (by decide)).1 1 3 rfl,
    (C1_getProperty_after_appends none none ThingType.THING freshProperties [7, 3, 5]
      (by decide) (fun _ _ => rfl) (by decide)).2 3 (by decide) (by decide)⟩

/-! ## C2 : lookup after appending devices to an adapter -/

/-- C2, as stated, fails at 256 devices: the devices at addresses `0, ..., 255` are distinct
and freshly constructed, the first one attached is the device at address `0`, and after the
256 `addDevice` calls `thingCount` has wrapped to `0`, so that `getDevice(0)` returns
`nullptr` instead of the first device. -/
theorem C2_counterexample :
    (List.range 256).Nodup ∧
      (∀ d ∈ List.range 256, (freshDevices d).next = Ptr.null) ∧
      (List.range 256)[0]? = some 0 ∧
      (ThingAdapter.built none none freshDevices (List.range 256)).1.thingCount = 0 ∧
      (ThingAdapter.built none none freshDevices (List.range 256)).1.getDevice
        (ThingAdapter.built none none freshDevices (List.range 256)).2 0 = some Ptr.null ∧
      (ThingAdapter.built none none freshDevices (List.range 256)).1.getDevice
        (ThingAdapter.built none none freshDevices (List.range 256)).2 0 ≠ some (Ptr.addr 0) := by
  have hfresh : ∀ d ∈ List.range 256, (freshDevices d).next = Ptr.null := fun _ _ => rfl
  have h := ThingAdapter.adapter_built_holds none none freshDevices (List.range 256)
    (List.nodup_range 256) hfresh
  have hcount : (ThingAdapter.built none none freshDevices (List.range 256)).1.thingCount
      = 0 := by
    rw [h.2.2.2, List.length_range]
  have hget := ThingAdapter.getDevice_ge _
    (ThingAdapter.built none none freshDevices (List.range 256)).2 0 (Nat.le_of_eq hcount)
  refine ⟨List.nodup_range 256, hfresh, by simp, hcount, hget, ?_⟩
  rw [hget]
  simp

/-- C2 (amended): for every M ≤ 255 and every sequence of M distinct, freshly constructed
devices appended with `addDevice` to a freshly constructed `ThingAdapter`, `getDevice(i)`
returns the `i`-th attached device for every `0 ≤ i < M`, and `getDevice(M)` returns
`nullptr`. -/
theorem C2_getDevice_after_appends (adapterName adapterDescription : Option String)
    (heap : DeviceHeap) (ds : List Nat) (hnd : ds.Nodup)
    (hfresh : ∀ d ∈ ds, (heap d).next = Ptr.null) (hM : ds.length ≤ 255) :
    (∀ i d, ds[i]? = some d →
      (ThingAdapter.built adapterName adapterDescription heap ds).1.getDevice
        (ThingAdapter.built adapterName adapterDescription heap ds).2 i = some (Ptr.addr d)) ∧
    (ThingAdapter.built adapterName adapterDescription heap ds).1.getDevice
        (ThingAdapter.built adapterName adapterDescription heap ds).2 ds.length
        = some Ptr.null := by
  have h := ThingAdapter.adapter_built_holds adapterName adapterDescription heap ds hnd hfresh
  have hmod : ds.length % 256 = ds.length := Nat.mod_eq_of_lt (by omega)
  constructor
  · intro i d hd
    have hi : i < ds.length := lt_length_of_getElem? ds i d hd
    obtain ⟨d', hd', hget⟩ := (ThingAdapter.getDevice_holds _ _ ds i h).1 (hmod.symm ▸ hi)
    have hdd : d' = d := Option.some.inj (hd'.symm.trans hd)
    rw [hget, hdd]
  · exact (ThingAdapter.getDevice_holds _ _ ds ds.length h).2 (Nat.le_of_eq hmod)

/-- C2, witness: two devices at addresses `4, 9`; index `1` finds the device at address `9`
and index `2` finds nothing. -/
theorem C2_getDevice_after_appends_witness :
    (ThingAdapter.built none none freshDevices [4, 9]).1.getDevice
        (ThingAdapter.built none none freshDevices [4, 9]).2 1 = some (Ptr.addr 9) ∧
      (ThingAdapter.built none none freshDevices [4, 9]).1.getDevice
        (ThingAdapter.built none none freshDevices [4, 9]).2 2 = some Ptr.null :=
  ⟨(C2_getDevice_after_appends none none freshDevices [4, 9]
      (by decide) (fun _ _ => rfl) (by decide)).1 1 9 rfl,
    (C2_getDevice_after_appends none none freshDevices [4, 9]
      (by decide) (fun _ _ => rfl) (by decide)).2⟩

/-! ## C3 : `setValue` on Boolean and Number cells -/

/-- C3: for every `ThingPropertyBoolean` or `ThingPropertyNumber` cell with `changed = false`
and every new value `v`: after `setValue(v)`, `getValue()` returns `v`, `changed` is true if
and only if `v` differs from the value stored before, and setting the stored value again
leaves the cell unmodified. -/
theorem C3_setValue_boolean_number (b : ThingPropertyBoolean) (vb : Bool)
    (n : ThingPropertyNumber) (vn : Int) (hb : b.changed = false) (hn : n.changed = false) :
    ((b.setValue vb).getValue = vb ∧ ((b.setValue vb).changed = true ↔ vb ≠ b.value) ∧
        (vb = b.value → b.setValue vb = b)) ∧
      ((n.setValue vn).getValue = vn ∧ ((n.setValue vn).changed = true ↔ vn ≠ n.value) ∧
        (vn = n.value → n.setValue vn = n)) := by
  constructor
  · by_cases h : vb = b.value
    · simp [ThingPropertyBoolean.setValue, ThingPropertyBoolean.getValue, h, hb]
    · simp [ThingPropertyBoolean.setValue, ThingPropertyBoolean.getValue, h]
  · by_cases h : vn = n.value
    · simp [ThingPropertyNumber.setValue, ThingPropertyNumber.getValue, h, hn]
    · simp [ThingPropertyNumber.setValue, ThingPropertyNumber.getValue, h]

/-- C3, witness: a Boolean cell holding `false` set to `true`, a Number cell holding `5` set
to `5`. -/
theorem C3_setValue_boolean_number_witness :
    (((ThingPropertyBoolean.new none none false).setValue true).getValue = true ∧
        (((ThingPropertyBoolean.new none none false).setValue true).changed = true ↔
          true ≠ (ThingPropertyBoolean.new none none false).value) ∧
        (true = (ThingPropertyBoolean.new none none false).value →
          (ThingPropertyBoolean.new none none false).setValue true =
            ThingPropertyBoolean.new none none false)) ∧
      (((ThingPropertyNumber.new none none 5).setValue 5).getValue = 5 ∧
        (((ThingPropertyNumber.new none none 5).setValue 5).changed = true ↔
          (5 : Int) ≠ (ThingPropertyNumber.new none none 5).value) ∧
        ((5 : Int) = (ThingPropertyNumber.new none none 5).value →
          (ThingPropertyNumber.new none none 5).setValue 5 =
            ThingPropertyNumber.new none none 5)) :=
  C3_setValue_boolean_number (ThingPropertyBoolean.new none none false) true
    (ThingPropertyNumber.new none none 5) 5 rfl rfl

/-! ## C4 : truncation and termination in `ThingPropertyString::setValue` -/

/-- C4, the code at the failing input: the buffer holds 31 zero bytes and the byte `65` in
its last position, the input is a string of 40 characters `a`, which differs from the stored
(empty) string.  Afterwards the buffer holds 31 characters `a` and still the byte `65` in its
last position: no terminator has been written and the buffer holds no string. -/
theorem C4_setValue_leaves_last_byte :
    openCell.value.length = 32 ∧
      cString openCell.value = some [] ∧
      openCell.setValue (some (List.replicate 40 97)) =
        some { openCell with value := List.replicate 31 97 ++ [65], changed := true } ∧
      (List.replicate 31 97 ++ [65])[31]? = some 65 ∧
      cString (List.replicate 31 97 ++ [65]) = none := by
  decide

/-! ## C5 : `changed` and value transitions -/

/-- C5, the code at the failing input: the buffer of a String cell holds the 31 characters
`a` and a terminator, `changed` is false, and the input is a string of 40 characters `a`.
`strcmp` compares the whole input with the stored string and finds them different, `strncpy`
copies the first 31 bytes, which are the stored string: the stored string is the same before
and after the call, and `changed` is true afterwards. -/
theorem C5_setValue_flags_unchanged_string :
    fullCell.changed = false ∧
      fullCell.value.length = 32 ∧
      cString fullCell.value = some (List.replicate 31 97) ∧
      fullCell.setValue (some (List.replicate 40 97)) = some { fullCell with changed := true } ∧
      ({ fullCell with changed := true } : ThingPropertyString).value = fullCell.value ∧
      cString ({ fullCell with changed := true } : ThingPropertyString).value =
        cString fullCell.value ∧
      ({ fullCell with changed := true } : ThingPropertyString).changed = true := by
  decide

/-- Apart from the inputs of the kind above, `changed` becomes true only on a value
transition.  For Boolean and Number cells with `changed = false` and every input, and for a
String cell with `changed = false` whose 32-byte buffer holds a null-terminated string and
every input other than a string longer than 31 characters whose first 31 characters are the
stored string: `setValue` returns, and if the stored value is the same before and after,
then `changed` is still false. -/
theorem changed_only_on_transition (b : ThingPropertyBoolean) (vb : Bool)
    (n : ThingPropertyNumber) (vn : Int) (s : ThingPropertyString)
    (input : Option (List Nat)) (old : List Nat)
    (hb : b.changed = false) (hn : n.changed = false) (hs : s.changed = false)
    (hlen : s.value.length = 32) (hold : cString s.value = some old)
    (hinput : ∀ t, input = some t →
      (∀ x ∈ t, x ≠ 0) ∧ ¬ (31 < t.length ∧ t.take 31 = old)) :
    ((b.setValue vb).value = b.value → (b.setValue vb).changed = false) ∧
      ((n.setValue vn).value = n.value → (n.setValue vn).changed = false) ∧
      ∃ s', s.setValue input = some s' ∧
        (cString s'.value = cString s.value → s'.changed = false) := by
  refine ⟨?_, ?_, ?_⟩
  · by_cases h : vb = b.value
    · simp [ThingPropertyBoolean.setValue, h, hb]
    · intro hsame
      simp [ThingPropertyBoolean.setValue, h] at hsame
  · by_cases h : vn = n.value
    · simp [ThingPropertyNumber.setValue, h, hn]
    · intro hsame
      simp [ThingPropertyNumber.setValue, h] at hsame
  · cases input with
    | none => exact ⟨s, rfl, fun _ => hs⟩
    | some t =>
      obtain ⟨htnz, hexcl⟩ := hinput t rfl
      obtain ⟨r, hr⟩ := strcmp_terminated s.value t old hold
      by_cases hr0 : r = 0
      · exact ⟨s, by simp [ThingPropertyString.setValue, hr, hr0], fun _ => hs⟩
      · have hne : t ≠ old := by
          intro e
          rw [e, strcmp_cString s.value old hold] at hr
          exact hr0 (Option.some.inj hr).symm
        have hcopy := strncpy_value s.value t (by omega) htnz
        have h31 : s.maxLength - 1 = 31 := rfl
        refine ⟨{ s with value := t.take 31 ++ List.replicate (31 - t.length) 0 ++
                           s.value.drop 31, changed := true }, ?_, ?_⟩
        · simp [ThingPropertyString.setValue, hr, hr0, h31, hcopy]
        · intro hsame
          exfalso
          have htake : ∀ x ∈ t.take 31, x ≠ 0 := fun x hx => htnz x (List.mem_of_mem_take hx)
          have hsame' : cString (t.take 31 ++
              (List.replicate (31 - t.length) 0 ++ s.value.drop 31)) = some old := by
            rw [← hold, ← hsame, List.append_assoc]
          rw [cString_append (t.take 31) _ htake] at hsame'
          by_cases hk : t.length < 31
          · obtain ⟨k, hk'⟩ : ∃ k, 31 - t.length = k + 1 := ⟨30 - t.length, by omega⟩
            rw [hk', cString_replicate_zero, List.take_of_length_le (by omega)] at hsame'
            simp at hsame'
            exact hne hsame'
          · have hz : 31 - t.length = 0 := by omega
            have hdrop : (s.value.drop 31).length = 1 := by simp [hlen]
            obtain ⟨x, hx⟩ := List.length_eq_one.mp hdrop
            rw [hz, hx] at hsame'
            by_cases hx0 : x = 0
            · simp [cString, hx0] at hsame'
              by_cases h31' : t.length = 31
              · rw [List.take_of_length_le (by omega)] at hsame'
                exact hne hsame'
              · exact hexcl ⟨by omega, hsame'⟩
            · simp [cString, hx0] at hsame'

/-! ## C6, C7 : `setValue` calls on a String cell that change nothing -/

/-- C6: for every `ThingPropertyString` cell with `changed = false` whose buffer holds a
null-terminated string `c`, `setValue` with a string equal to `c` returns, `changed` is still
false afterwards and the buffer, like the rest of the cell, is unmodified. -/
theorem C6_setValue_same_string (s : ThingPropertyString) (c : List Nat)
    (hs : s.changed = false) (hc : cString s.value = some c) :
    ∃ s', s.setValue (some c) = some s' ∧ s'.changed = false ∧ s'.value = s.value ∧ s' = s := by
  refine ⟨s, ?_, hs, rfl, rfl⟩
  simp [ThingPropertyString.setValue, strcmp_cString s.value c hc]

/-- C6, witness: the buffer holds the 31 characters `a` and a terminator, which is what a
zeroed cell stores for an input of 40 characters `a`; setting these 31 characters changes
nothing. -/
theorem C6_setValue_same_string_witness :
    (ThingPropertyString.new none none (List.replicate 32 0)).setValue
        (some (List.replicate 40 97)) = some { fullCell with changed := true } ∧
      ∃ s', fullCell.setValue (some (List.replicate 31 97)) = some s' ∧
        s'.changed = false ∧ s'.value = fullCell.value ∧ s' = fullCell :=
  ⟨by decide, C6_setValue_same_string fullCell (List.replicate 31 97) rfl (by decide)⟩

/-- C7: for every `ThingPropertyString` cell in any state, `setValue(nullptr)` returns and
leaves the whole cell, the buffer and the `changed` flag included, exactly as before. -/
theorem C7_setValue_null (s : ThingPropertyString) : s.setValue none = some s :=
  rfl

/-! ## C8 : one more `addProperty` call -/

/-- C8: for every device built from a fresh device by `addProperty` of `n < 255` distinct
fresh cells and every fresh cell `c` not yet attached: `addProperty(c)` returns `n + 1`,
`propertyCount` becomes `n + 1`, `getProperty(n)` afterwards returns `c`, and `getProperty(i)`
for every `i < n` returns a cell, the same one as before the call. -/
theorem C8_addProperty_appends (deviceName deviceDescription : Option String)
    (deviceType : ThingType) (heap : PropertyHeap) (cs : List Nat) (c : Nat)
    (hnd : cs.Nodup) (hfresh : ∀ x ∈ cs, (heap x).base.next = Ptr.null)
    (hn : cs.length < 255) (hc : c ∉ cs)
    (hcfresh : ((ThingDevice.built deviceName deviceDescription deviceType heap cs).2 c).base.next
      = Ptr.null) :
    ((ThingDevice.built deviceName deviceDescription deviceType heap cs).1.addProperty
        (ThingDevice.built deviceName deviceDescription deviceType heap cs).2 c).ret
        = cs.length + 1 ∧
      ((ThingDevice.built deviceName deviceDescription deviceType heap cs).1.addProperty
        (ThingDevice.built deviceName deviceDescription deviceType heap cs).2 c).device.propertyCount
        = cs.length + 1 ∧
      ((ThingDevice.built deviceName deviceDescription deviceType heap cs).1.addProperty
        (ThingDevice.built deviceName deviceDescription deviceType heap cs).2 c).device.getProperty
        ((ThingDevice.built deviceName deviceDescription deviceType heap cs).1.addProperty
          (ThingDevice.built deviceName deviceDescription deviceType heap cs).2 c).heap cs.length
        = some (Ptr.addr c) ∧
      ∀ i, i < cs.length →
        (∃ x, (ThingDevice.built deviceName deviceDescription deviceType heap cs).1.getProperty
          (ThingDevice.built deviceName deviceDescription deviceType heap cs).2 i
          = some (Ptr.addr x)) ∧
        ((ThingDevice.built deviceName deviceDescription deviceType heap cs).1.addProperty
          (ThingDevice.built deviceName deviceDescription deviceType heap cs).2 c).device.getProperty
          ((ThingDevice.built deviceName deviceDescription deviceType heap cs).1.addProperty
            (ThingDevice.built deviceName deviceDescription deviceType heap cs).2 c).heap i
          = (ThingDevice.built deviceName deviceDescription deviceType heap cs).1.getProperty
            (ThingDevice.built deviceName deviceDescription deviceType heap cs).2 i := by
  have h := ThingDevice.device_built_holds deviceName deviceDescription deviceType heap cs hnd hfresh
  generalize ThingDevice.built deviceName deviceDescription deviceType heap cs = st at h hcfresh ⊢
  obtain ⟨h', hret, hcount, _⟩ := ThingDevice.addProperty_holds st.1 st.2 cs c h hc hcfresh
  have hmod : (cs.length + 1) % 256 = cs.length + 1 := Nat.mod_eq_of_lt (by omega)
  have hmod0 : cs.length % 256 = cs.length := Nat.mod_eq_of_lt (by omega)
  refine ⟨hret.trans hmod, hcount.trans hmod, ?_, ?_⟩
  · apply ThingDevice.getProperty_holds_lt _ _ (cs ++ [c]) cs.length c h'
    · rw [hcount, hmod]
      exact Nat.lt_succ_self _
    · simp
  · intro i hi
    obtain ⟨x, hx, hbefore⟩ := (ThingDevice.getProperty_holds st.1 st.2 cs i h).1 (hmod0.symm ▸ hi)
    refine ⟨⟨x, hbefore⟩, ?_⟩
    rw [hbefore]
    apply ThingDevice.getProperty_holds_lt _ _ (cs ++ [c]) i x h'
    · rw [hcount, hmod]
      exact Nat.lt_succ_of_lt hi
    · rw [List.getElem?_append_left hi]
      exact hx

/-- C8, witness: a device holding the cells at addresses `7, 3`, and the cell at address
`5` attached to it. -/
theorem C8_addProperty_appends_witness :
    ((ThingDevice.built none none ThingType.THING freshProperties [7, 3]).1.addProperty
        (ThingDevice.built none none ThingType.THING freshProperties [7, 3]).2 5).ret = 3 ∧
      ((ThingDevice.built none none ThingType.THING freshProperties [7, 3]).1.addProperty
        (ThingDevice.built none none ThingType.THING freshProperties [7, 3]).2 5).device.getProperty
        ((ThingDevice.built none none ThingType.THING freshProperties [7, 3]).1.addProperty
          (ThingDevice.built none none ThingType.THING freshProperties [7, 3]).2 5).heap 2
        = some (Ptr.addr 5) :=
  ⟨(C8_addProperty_appends none none ThingType.THING freshProperties [7, 3] 5
      (by decide) (fun _ _ => rfl) (by decide) (by decide) (by decide)).1,
    (C8_addProperty_appends none none ThingType.THING freshProperties [7, 3] 5
      (by decide) (fun _ _ => rfl) (by decide) (by decide) (by decide)).2.2.1⟩

/-! ## C9 : stability of device indices -/

/-- C9, as stated, fails at 255 devices: an adapter holds the distinct fresh devices at
addresses `0, ..., 254`, so `thingCount` is `255` and `getDevice(0)` returns the device at
address `0`; the device at address `255` is fresh and not attached; after `addDevice` of it
`thingCount` has wrapped to `0` and `getDevice(0)` returns `nullptr`. -/
theorem C9_counterexample :
    (List.range 255).Nodup ∧
      (∀ d ∈ List.range 255, (freshDevices d).next = Ptr.null) ∧
      255 ∉ List.range 255 ∧
      ((ThingAdapter.built none none freshDevices (List.range 255)).2 255).next = Ptr.null ∧
      (ThingAdapter.built none none freshDevices (List.range 255)).1.getDevice
        (ThingAdapter.built none none freshDevices (List.range 255)).2 0 = some (Ptr.addr 0) ∧
      ((ThingAdapter.built none none freshDevices (List.range 255)).1.addDevice
        (ThingAdapter.built none none freshDevices (List.range 255)).2 255).adapter.thingCount
        = 0 ∧
      ((ThingAdapter.built none none freshDevices (List.range 255)).1.addDevice
        (ThingAdapter.built none none freshDevices (List.range 255)).2 255).adapter.getDevice
        ((ThingAdapter.built none none freshDevices (List.range 255)).1.addDevice
          (ThingAdapter.built none none freshDevices (List.range 255)).2 255).heap 0
        = some Ptr.null := by
  have hfresh : ∀ d ∈ List.range 255, (freshDevices d).next = Ptr.null := fun _ _ => rfl
  have hnot : 255 ∉ List.range 255 := by simp
  have h := ThingAdapter.adapter_built_holds none none freshDevices (List.range 255)
    (List.nodup_range 255) hfresh
  have hbuilt : ∀ a, a ∉ List.range 255 →
      (ThingAdapter.built none none freshDevices (List.range 255)).2 a = freshDevices a := by
    intro a ha
    exact ThingAdapter.addDevices_frame (List.range 255) _ freshDevices []
      (ThingAdapter.adapter_holds_new none none freshDevices) (by simpa using List.nodup_range 255)
      hfresh a (by simpa using ha)
  have hnext : ((ThingAdapter.built none none freshDevices (List.range 255)).2 255).next
      = Ptr.null := by
    rw [hbuilt 255 hnot]
    rfl
  generalize ThingAdapter.built none none freshDevices (List.range 255) = st at h hnext ⊢
  obtain ⟨_, _, hcount, _⟩ := ThingAdapter.addDevice_holds st.1 st.2 (List.range 255) 255 h
    hnot hnext
  have hcount0 : (st.1.addDevice st.2 255).adapter.thingCount = 0 := by
    rw [hcount, List.length_range]
  refine ⟨List.nodup_range 255, hfresh, hnot, hnext, ?_, hcount0, ?_⟩
  · apply ThingAdapter.getDevice_holds_lt st.1 st.2 (List.range 255) 0 0 h
    · rw [h.2.2.2, List.length_range]
      decide
    · simp
  · exact ThingAdapter.getDevice_ge _ _ 0 (Nat.le_of_eq hcount0)

/-- C9 (amended): for every `ThingAdapter` state reachable from a fresh adapter by any number
of `addDevice` calls on distinct fresh devices in which `thingCount` is not `255`, every index
`i` for which `getDevice(i)` returns a device `d`, and every further `addDevice` call on a
fresh device not yet attached, `getDevice(i)` still returns `d` after that call. -/
theorem C9_getDevice_stable (adapterName adapterDescription : Option String)
    (heap : DeviceHeap) (ds : List Nat) (c i d : Nat)
    (hnd : ds.Nodup) (hfresh : ∀ x ∈ ds, (heap x).next = Ptr.null)
    (hcount : (ThingAdapter.built adapterName adapterDescription heap ds).1.thingCount ≠ 255)
    (hc : c ∉ ds)
    (hcfresh : ((ThingAdapter.built adapterName adapterDescription heap ds).2 c).next = Ptr.null)
    (hget : (ThingAdapter.built adapterName adapterDescription heap ds).1.getDevice
      (ThingAdapter.built adapterName adapterDescription heap ds).2 i = some (Ptr.addr d)) :
    ((ThingAdapter.built adapterName adapterDescription heap ds).1.addDevice
        (ThingAdapter.built adapterName adapterDescription heap ds).2 c).adapter.getDevice
      ((ThingAdapter.built adapterName adapterDescription heap ds).1.addDevice
        (ThingAdapter.built adapterName adapterDescription heap ds).2 c).heap i
      = some (Ptr.addr d) := by
  have h := ThingAdapter.adapter_built_holds adapterName adapterDescription heap ds hnd hfresh
  generalize ThingAdapter.built adapterName adapterDescription heap ds = st
    at h hcount hcfresh hget ⊢
  obtain ⟨h', _, hcount', _⟩ := ThingAdapter.addDevice_holds st.1 st.2 ds c h hc hcfresh
  have hc0 : st.1.thingCount = ds.length % 256 := h.2.2.2
  have hi : i < ds.length % 256 := by
    by_contra hge
    rw [(ThingAdapter.getDevice_holds st.1 st.2 ds i h).2 (Nat.le_of_not_lt hge)] at hget
    simp at hget
  obtain ⟨x, hx, hbefore⟩ := (ThingAdapter.getDevice_holds st.1 st.2 ds i h).1 hi
  have hxd : x = d := by
    rw [hbefore] at hget
    simpa using hget
  subst hxd
  have hlen : i < ds.length := lt_of_lt_of_le hi (Nat.mod_le _ _)
  apply ThingAdapter.getDevice_holds_lt _ _ (ds ++ [c]) i x h'
  · rw [hcount']
    rw [hc0] at hcount
    omega
  · rw [List.getElem?_append_left hlen]
    exact hx

/-- C9, witness: an adapter holding the devices at addresses `4, 9`; `getDevice(1)` returns
the device at address `9` before and after the device at address `2` is attached. -/
theorem C9_getDevice_stable_witness :
    ((ThingAdapter.built none none freshDevices [4, 9]).1.addDevice
        (ThingAdapter.built none none freshDevices [4, 9]).2 2).adapter.getDevice
      ((ThingAdapter.built none none freshDevices [4, 9]).1.addDevice
        (ThingAdapter.built none none freshDevices [4, 9]).2 2).heap 1
      = some (Ptr.addr 9) :=
  C9_getDevice_stable none none freshDevices [4, 9] 2 1 9
    (by decide) (fun _ _ => rfl) (by decide) (by decide) (by decide) (by decide)

/-! ## C10 : the lamp example -/

/-- C10: in any memory, with the device `lamp1` (type `ONOFFSWITCH`) at address `d`, the
Boolean cell `on` (value false, `changed` false) at address `p`, the cell attached to the
device and the device to the fresh adapter `gw`: `getDevice(0)` is `lamp1`, `getProperty(0)`
on it is the cell `on`, which still holds false with `changed` false; `setValue(true)` on it
makes `getValue()` return true and `changed` true, and a second `setValue(true)` leaves the
value true and `changed` true. -/
theorem C10_lamp_example (m : Memory) (d p : Nat) :
    (lampAdapter m d p).ret = 1 ∧
      (lampAdapter m d p).adapter.name = some "gw" ∧
      (lampAdapter m d p).adapter.getDevice (lampAdapter m d p).heap 0 = some (Ptr.addr d) ∧
      ((lampAdapter m d p).heap d).name = some "lamp1" ∧
      ((lampAdapter m d p).heap d).type = ThingType.ONOFFSWITCH ∧
      ((lampAdapter m d p).heap d).getProperty (lampMemory m d p).properties 0
        = some (Ptr.addr p) ∧
      ((lampMemory m d p).properties p).base.name = some "on" ∧
      (lampMemory m d p).getBoolean p = some (false, false) ∧
      ∃ m1 m2, (lampMemory m d p).setBoolean p true = some m1 ∧
        m1.getBoolean p = some (true, true) ∧
        m1.setBoolean p true = some m2 ∧
        m2.getBoolean p = some (true, true) := by
  refine ⟨rfl, rfl, ?_, ?_, ?_, ?_, ?_, ?_, ?_⟩
  · simp [lampAdapter, ThingAdapter.addDevice, ThingAdapter.new, ThingAdapter.getDevice,
      ThingAdapter.getDeviceLoop]
  · simp [lampAdapter, lampMemory, Memory.attachProperty, ThingAdapter.addDevice,
      ThingAdapter.new, ThingDevice.addProperty, ThingDevice.new]
  · simp [lampAdapter, lampMemory, Memory.attachProperty, ThingAdapter.addDevice,
      ThingAdapter.new, ThingDevice.addProperty, ThingDevice.new]
  · simp [lampAdapter, lampMemory, Memory.attachProperty, ThingAdapter.addDevice,
      ThingAdapter.new, ThingDevice.addProperty, ThingDevice.new, ThingDevice.getProperty,
      ThingDevice.getPropertyLoop]
  · simp [lampMemory, Memory.attachProperty, ThingDevice.addProperty, ThingDevice.new,
      PropertyObject.base, ThingPropertyBoolean.new, ThingProperty.new]
  · simp [lampMemory, Memory.attachProperty, ThingDevice.addProperty, ThingDevice.new,
      Memory.getBoolean, ThingPropertyBoolean.new, ThingProperty.new,
      ThingPropertyBoolean.getValue]
  · simp [lampMemory, Memory.attachProperty, ThingDevice.addProperty, ThingDevice.new,
      Memory.getBoolean, Memory.setBoolean, ThingPropertyBoolean.new, ThingProperty.new,
      ThingPropertyBoolean.getValue, ThingPropertyBoolean.setValue]

/-! ## C11 : `getValue` reads and writes nothing -/

/-- C11: for every cell of every variant (Boolean, Number, String) in any state,
`getValue()` returns the currently stored value and leaves the whole cell unchanged; in
particular the `changed` flag after `getValue()` equals the `changed` flag before it. -/
theorem C11_getValue_frame (b : ThingPropertyBoolean) (n : ThingPropertyNumber)
    (s : ThingPropertyString) :
    (b.getValueCall.ret = b.value ∧ b.getValue = b.value ∧ b.getValueCall.cell = b ∧
        b.getValueCall.cell.changed = b.changed) ∧
      (n.getValueCall.ret = n.value ∧ n.getValue = n.value ∧ n.getValueCall.cell = n ∧
        n.getValueCall.cell.changed = n.changed) ∧
      (s.getValueCall.ret = s.value ∧ s.getValue = s.value ∧ s.getValueCall.cell = s ∧
        s.getValueCall.cell.changed = s.changed) :=
  ⟨⟨rfl, rfl, rfl, rfl⟩, ⟨rfl, rfl, rfl, rfl⟩, ⟨rfl, rfl, rfl, rfl⟩⟩

/-! ## C12 : the adapter list and the device list -/

/-- The two lookup loops agree on corresponding chains. -/
theorem getDeviceLoop_rename (f : Nat → Nat) (dh : DeviceHeap) (ph : PropertyHeap)
    (hnext : ∀ x, ((dh x).next).rename f = (ph (f x)).base.next) :
    ∀ (n : Nat) (p : Ptr), (ThingAdapter.getDeviceLoop dh n p).map (Ptr.rename f) =
      ThingDevice.getPropertyLoop ph n (p.rename f)
  | 0, _ => rfl
  | n + 1, Ptr.null => rfl
  | n + 1, Ptr.addr a => by
    have hstep := hnext a
    simp only [ThingAdapter.getDeviceLoop, ThingDevice.getPropertyLoop, Ptr.rename]
    cases hd : (dh a).next with
    | null =>
      rw [hd] at hstep
      rw [← hstep]
      rfl
    | addr b =>
      rw [hd] at hstep
      rw [← hstep]
      exact getDeviceLoop_rename f dh ph hnext n (Ptr.addr b)

/-- C12: under the correspondence of a `ThingAdapter` (`firstDevice`, `lastDevice`,
`thingCount`, `device.next`) with a `ThingDevice` (`firstProperty`, `lastProperty`,
`propertyCount`, `property.next`), device addresses being renamed one to one to cell
addresses: `addDevice` and `addProperty` on corresponding arguments return the same count and
lead to corresponding states, and `getDevice` and `getProperty` at the same index return
corresponding pointers (or are both undefined). -/
theorem C12_lists_correspond (f : Nat → Nat) (hf : Function.Injective f) (a : ThingAdapter)
    (dh : DeviceHeap) (d : ThingDevice) (ph : PropertyHeap)
    (h : ListsCorrespond f a dh d ph) (x i : Nat) :
    (a.addDevice dh x).ret = (d.addProperty ph (f x)).ret ∧
      ListsCorrespond f (a.addDevice dh x).adapter (a.addDevice dh x).heap
        (d.addProperty ph (f x)).device (d.addProperty ph (f x)).heap ∧
      (a.getDevice dh i).map (Ptr.rename f) = d.getProperty ph i := by
  obtain ⟨hfirst, hlast, hcount, hnext⟩ := h
  refine ⟨?_, ?_, ?_⟩
  · cases hl : a.lastDevice with
    | null =>
      have hl' : d.lastProperty = Ptr.null := by rw [← hlast, hl]; rfl
      simp [ThingAdapter.addDevice, ThingDevice.addProperty, hl, hl', hcount]
    | addr l =>
      have hl' : d.lastProperty = Ptr.addr (f l) := by rw [← hlast, hl]; rfl
      simp [ThingAdapter.addDevice, ThingDevice.addProperty, hl, hl', hcount]
  · cases hl : a.lastDevice with
    | null =>
      have hl' : d.lastProperty = Ptr.null := by rw [← hlast, hl]; rfl
      simp only [ThingAdapter.addDevice, ThingDevice.addProperty, hl, hl', hcount]
      exact ⟨rfl, rfl, rfl, hnext⟩
    | addr l =>
      have hl' : d.lastProperty = Ptr.addr (f l) := by rw [← hlast, hl]; rfl
      simp only [ThingAdapter.addDevice, ThingDevice.addProperty, hl, hl', hcount]
      refine ⟨hfirst, rfl, rfl, ?_⟩
      intro y
      by_cases hy : y = l
      · subst hy
        simp [setNext_base_next, Ptr.rename]
      · have hfy : f y ≠ f l := fun e => hy (hf e)
        simp only [Function.update_noteq hy, Function.update_noteq hfy]
        exact hnext y
  · unfold ThingAdapter.getDevice ThingDevice.getProperty
    rw [hcount]
    by_cases hi : i ≥ d.propertyCount
    · rw [if_pos hi, if_pos hi]
      rfl
    · rw [if_neg hi, if_neg hi, getDeviceLoop_rename f dh ph hnext, hfirst]

/-- C12, witness: an adapter holding the devices at addresses `4, 9` and a device holding the
cells at addresses `14, 19`, with the renaming `x + 10`; the device at address `2` and the
cell at address `12` are attached, and index `1` is looked up. -/
theorem C12_lists_correspond_witness :
    ((ThingAdapter.built none none freshDevices [4, 9]).1.addDevice
        (ThingAdapter.built none none freshDevices [4, 9]).2 2).ret =
      ((ThingDevice.built none none ThingType.THING freshProperties [14, 19]).1.addProperty
        (ThingDevice.built none none ThingType.THING freshProperties [14, 19]).2 12).ret ∧
      ListsCorrespond (fun x => x + 10)
        ((ThingAdapter.built none none freshDevices [4, 9]).1.addDevice
          (ThingAdapter.built none none freshDevices [4, 9]).2 2).adapter
        ((ThingAdapter.built none none freshDevices [4, 9]).1.addDevice
          (ThingAdapter.built none none freshDevices [4, 9]).2 2).heap
        ((ThingDevice.built none none ThingType.THING freshProperties [14, 19]).1.addProperty
          (ThingDevice.built none none ThingType.THING freshProperties [14, 19]).2 12).device
        ((ThingDevice.built none none ThingType.THING freshProperties [14, 19]).1.addProperty
          (ThingDevice.built none none ThingType.THING freshProperties [14, 19]).2 12).heap ∧
      ((ThingAdapter.built none none freshDevices [4, 9]).1.getDevice
        (ThingAdapter.built none none freshDevices [4, 9]).2 1).map (Ptr.rename (fun x => x + 10)) =
      (ThingDevice.built none none ThingType.THING freshProperties [14, 19]).1.getProperty
        (ThingDevice.built none none ThingType.THING freshProperties [14, 19]).2 1 :=
  C12_lists_correspond (fun x => x + 10) (fun _ _ e => Nat.add_right_cancel e)
    (ThingAdapter.built none none freshDevices [4, 9]).1
    (ThingAdapter.built none none freshDevices [4, 9]).2
    (ThingDevice.built none none ThingType.THING freshProperties [14, 19]).1
    (ThingDevice.built none none ThingType.THING freshProperties [14, 19]).2
    ⟨rfl, rfl, rfl, fun x => by
      by_cases h4 : x = 4
      · subst h4; rfl
      · have h14 : x + 10 ≠ 14 := by omega
        simp [ThingAdapter.built, ThingAdapter.addDevices, ThingAdapter.addDevice,
          ThingAdapter.new, ThingDevice.built, ThingDevice.addProperties,
          ThingDevice.addProperty, ThingDevice.new, Function.update_noteq h4,
          Function.update_noteq h14, freshDevices, freshProperties, PropertyObject.base,
          ThingPropertyNumber.new, ThingProperty.new, Ptr.rename]⟩ 2 1

/-! ## C13 : the null check inside the lookup loops -/

theorem getPropertyLoopExit_eq_walkExit (heap : PropertyHeap) (n : Nat) (p : Ptr) :
    ThingDevice.getPropertyLoopExit heap n p = walkExit (propertyNext heap) n p := by
  induction n generalizing p with
  | zero => rfl
  | succ n ih =>
    cases p with
    | null => rfl
    | addr a =>
      simp only [ThingDevice.getPropertyLoopExit, walkExit, propertyNext]
      cases h : (heap a).base.next with
      | null => rfl
      | addr b => simpa [propertyNext] using ih (Ptr.addr b)

theorem getDeviceLoopExit_eq_walkExit (heap : DeviceHeap) (n : Nat) (p : Ptr) :
    ThingAdapter.getDeviceLoopExit heap n p = walkExit (deviceNext heap) n p := by
  induction n generalizing p with
  | zero => rfl
  | succ n ih =>
    cases p with
    | null => rfl
    | addr a =>
      simp only [ThingAdapter.getDeviceLoopExit, walkExit, deviceNext]
      cases h : (heap a).next with
      | null => rfl
      | addr b => simpa [deviceNext] using ih (Ptr.addr b)

/-- Forgetting the `return` statement taken gives the loop itself. -/
theorem walkExit_fst (nx : Nat → Ptr) :
    ∀ (n : Nat) (p : Ptr), (walkExit nx n p).map Prod.fst = walk nx n p
  | 0, _ => rfl
  | _ + 1, Ptr.null => rfl
  | n + 1, Ptr.addr a => by
    simp only [walkExit, walk]
    cases h : nx a with
    | null => rfl
    | addr b => exact walkExit_fst nx n (Ptr.addr b)

/-- Forgetting the `return` statement taken gives `getProperty` itself, in every state. -/
theorem ThingDevice.getPropertyExit_fst (this : ThingDevice) (heap : PropertyHeap) (i : Nat) :
    (this.getPropertyExit heap i).map Prod.fst = this.getProperty heap i := by
  unfold ThingDevice.getPropertyExit ThingDevice.getProperty
  by_cases hi : i ≥ this.propertyCount
  · rw [if_pos hi, if_pos hi]
    rfl
  · rw [if_neg hi, if_neg hi, getPropertyLoopExit_eq_walkExit, getPropertyLoop_eq_walk]
    exact walkExit_fst _ i _

/-- Forgetting the `return` statement taken gives `getDevice` itself, in every state. -/
theorem ThingAdapter.getDeviceExit_fst (this : ThingAdapter) (heap : DeviceHeap) (i : Nat) :
    (this.getDeviceExit heap i).map Prod.fst = this.getDevice heap i := by
  unfold ThingAdapter.getDeviceExit ThingAdapter.getDevice
  by_cases hi : i ≥ this.thingCount
  · rw [if_pos hi, if_pos hi]
    rfl
  · rw [if_neg hi, if_neg hi, getDeviceLoopExit_eq_walkExit, getDeviceLoop_eq_walk]
    exact walkExit_fst _ i _

/-- Walking `i` steps along a chain leaves through the `return` after the loop. -/
theorem walkExit_linked (nx : Nat → Ptr) :
    ∀ (xs : List Nat) (p : Ptr) (i c : Nat), Linked nx p xs → xs[i]? = some c →
      walkExit nx i p = some (Ptr.addr c, LookupExit.loopEnd)
  | [], _, _, _, _, h => by simp at h
  | x :: xs, p, 0, c, hl, h => by
    have hx : x = c := by simpa using h
    simp [walkExit, hl.1, hx]
  | x :: xs, p, i + 1, c, hl, h => by
    have hc : xs[i]? = some c := by simpa using h
    obtain ⟨hp, hrest⟩ := hl
    subst hp
    cases xs with
    | nil => simp at hc
    | cons y ys =>
      have hy : nx x = Ptr.addr y := hrest.1
      simp only [walkExit, hy]
      exact walkExit_linked nx (y :: ys) (Ptr.addr y) i c (hy ▸ hrest) hc

/-- The `return` statement taken by a lookup in a device that holds `xs`. -/
theorem ThingDevice.getPropertyExit_holds (this : ThingDevice) (heap : PropertyHeap)
    (xs : List Nat) (i : Nat) (h : this.Holds heap xs) :
    (i < xs.length % 256 → ∃ c, xs[i]? = some c ∧
        this.getPropertyExit heap i = some (Ptr.addr c, LookupExit.loopEnd)) ∧
      (xs.length % 256 ≤ i →
        this.getPropertyExit heap i = some (Ptr.null, LookupExit.indexCheck)) := by
  have hcount : this.propertyCount = xs.length % 256 := h.2.2.2
  unfold ThingDevice.getPropertyExit
  constructor
  · intro hi
    have hlen : i < xs.length := lt_of_lt_of_le hi (Nat.mod_le _ _)
    obtain ⟨c, hc⟩ := getElem?_of_lt_length xs i hlen
    refine ⟨c, hc, ?_⟩
    rw [if_neg (by rw [hcount]; exact Nat.not_le.mpr hi), getPropertyLoopExit_eq_walkExit]
    exact walkExit_linked (propertyNext heap) xs this.firstProperty i c h.1 hc
  · intro hi
    rw [if_pos (by rw [hcount]; exact hi)]

/-- The `return` statement taken by a lookup in an adapter that holds `xs`. -/
theorem ThingAdapter.getDeviceExit_holds (this : ThingAdapter) (heap : DeviceHeap)
    (xs : List Nat) (i : Nat) (h : this.Holds heap xs) :
    (i < xs.length % 256 → ∃ d, xs[i]? = some d ∧
        this.getDeviceExit heap i = some (Ptr.addr d, LookupExit.loopEnd)) ∧
      (xs.length % 256 ≤ i →
        this.getDeviceExit heap i = some (Ptr.null, LookupExit.indexCheck)) := by
  have hcount : this.thingCount = xs.length % 256 := h.2.2.2
  unfold ThingAdapter.getDeviceExit
  constructor
  · intro hi
    have hlen : i < xs.length := lt_of_lt_of_le hi (Nat.mod_le _ _)
    obtain ⟨d, hd⟩ := getElem?_of_lt_length xs i hlen
    refine ⟨d, hd, ?_⟩
    rw [if_neg (by rw [hcount]; exact Nat.not_le.mpr hi), getDeviceLoopExit_eq_walkExit]
    exact walkExit_linked (deviceNext heap) xs this.firstDevice i d h.1 hd
  · intro hi
    rw [if_pos (by rw [hcount]; exact hi)]

/-- C13: for every `ThingDevice` (resp. `ThingAdapter`) reachable from a fresh one by any
number of `addProperty` (resp. `addDevice`) calls on distinct fresh items, more than 255 of
them included, and every 8-bit index, `getProperty` (resp. `getDevice`) returns, never
through the `return nullptr` inside the loop, and it returns `nullptr` only through the
index check before the loop. -/
theorem C13_loop_check_unreachable (deviceName deviceDescription : Option String)
    (deviceType : ThingType) (heap : PropertyHeap) (cs : List Nat)
    (adapterName adapterDescription : Option String) (dheap : DeviceHeap) (ds : List Nat)
    (idx : Nat) (hcs : cs.Nodup) (hfresh : ∀ c ∈ cs, (heap c).base.next = Ptr.null)
    (hds : ds.Nodup) (hdfresh : ∀ d ∈ ds, (dheap d).next = Ptr.null) :
    idx < 256 →
      (∃ r, (ThingDevice.built deviceName deviceDescription deviceType heap cs).1.getPropertyExit
            (ThingDevice.built deviceName deviceDescription deviceType heap cs).2 idx = some r ∧
          (ThingDevice.built deviceName deviceDescription deviceType heap cs).1.getProperty
            (ThingDevice.built deviceName deviceDescription deviceType heap cs).2 idx
            = some r.1 ∧
          r.2 ≠ LookupExit.loopCheck ∧ (r.1 = Ptr.null ↔ r.2 = LookupExit.indexCheck)) ∧
      (∃ r, (ThingAdapter.built adapterName adapterDescription dheap ds).1.getDeviceExit
            (ThingAdapter.built adapterName adapterDescription dheap ds).2 idx = some r ∧
          (ThingAdapter.built adapterName adapterDescription dheap ds).1.getDevice
            (ThingAdapter.built adapterName adapterDescription dheap ds).2 idx = some r.1 ∧
          r.2 ≠ LookupExit.loopCheck ∧ (r.1 = Ptr.null ↔ r.2 = LookupExit.indexCheck)) := by
  intro _
  have h := ThingDevice.device_built_holds deviceName deviceDescription deviceType heap cs
    hcs hfresh
  have h' := ThingAdapter.adapter_built_holds adapterName adapterDescription dheap ds
    hds hdfresh
  constructor
  · by_cases hi : idx < cs.length % 256
    · obtain ⟨c, hc, hexit⟩ := (ThingDevice.getPropertyExit_holds _ _ cs idx h).1 hi
      refine ⟨(Ptr.addr c, LookupExit.loopEnd), hexit, ?_, by simp, by simp⟩
      rw [← ThingDevice.getPropertyExit_fst, hexit]
      rfl
    · have hexit := (ThingDevice.getPropertyExit_holds _ _ cs idx h).2 (Nat.le_of_not_lt hi)
      refine ⟨(Ptr.null, LookupExit.indexCheck), hexit, ?_, by simp, by simp⟩
      rw [← ThingDevice.getPropertyExit_fst, hexit]
      rfl
  · by_cases hi : idx < ds.length % 256
    · obtain ⟨d, hd, hexit⟩ := (ThingAdapter.getDeviceExit_holds _ _ ds idx h').1 hi
      refine ⟨(Ptr.addr d, LookupExit.loopEnd), hexit, ?_, by simp, by simp⟩
      rw [← ThingAdapter.getDeviceExit_fst, hexit]
      rfl
    · have hexit := (ThingAdapter.getDeviceExit_holds _ _ ds idx h').2 (Nat.le_of_not_lt hi)
      refine ⟨(Ptr.null, LookupExit.indexCheck), hexit, ?_, by simp, by simp⟩
      rw [← ThingAdapter.getDeviceExit_fst, hexit]
      rfl

/-- C13, witness: a device holding 300 cells and an adapter holding 300 devices, looked up at
index `43`, which is below the wrapped counter `44`. -/
theorem C13_loop_check_unreachable_witness :
    (∃ r, (ThingDevice.built none none ThingType.THING freshProperties
            (List.range 300)).1.getPropertyExit
          (ThingDevice.built none none ThingType.THING freshProperties (List.range 300)).2 43
          = some r ∧
        (ThingDevice.built none none ThingType.THING freshProperties
            (List.range 300)).1.getProperty
          (ThingDevice.built none none ThingType.THING freshProperties (List.range 300)).2 43
          = some r.1 ∧
        r.2 ≠ LookupExit.loopCheck ∧ (r.1 = Ptr.null ↔ r.2 = LookupExit.indexCheck)) ∧
      (∃ r, (ThingAdapter.built none none freshDevices (List.range 300)).1.getDeviceExit
          (ThingAdapter.built none none freshDevices (List.range 300)).2 43 = some r ∧
        (ThingAdapter.built none none freshDevices (List.range 300)).1.getDevice
          (ThingAdapter.built none none freshDevices (List.range 300)).2 43 = some r.1 ∧
        r.2 ≠ LookupExit.loopCheck ∧ (r.1 = Ptr.null ↔ r.2 = LookupExit.indexCheck)) :=
  C13_loop_check_unreachable none none ThingType.THING freshProperties (List.range 300)
    none none freshDevices (List.range 300) 43
    (List.nodup_range 300) (fun _ _ => rfl) (List.nodup_range 300) (fun _ _ => rfl)
    (by decide)

/-! ## C14 : the 8-bit counters wrap -/

/-- The values returned by a sequence of `addProperty` calls on a device that holds `xs`. -/
theorem ThingDevice.addPropertiesRets_holds :
    ∀ (cs : List Nat) (this : ThingDevice) (heap : PropertyHeap) (xs : List Nat) (k : Nat),
      this.Holds heap xs → (xs ++ cs).Nodup → (∀ c ∈ cs, (heap c).base.next = Ptr.null) →
      k < cs.length →
      (this.addPropertiesRets heap cs)[k]? = some ((xs.length + k + 1) % 256)
  | [], _, _, _, _, _, _, _, hk => by simp at hk
  | c :: cs, this, heap, xs, k, h, hnd, hfresh, hk => by
    have hcx : c ∉ xs := by
      intro hm
      exact (List.nodup_append.mp hnd).2.2 hm (List.mem_cons_self c cs)
    obtain ⟨hstep, hret, _, hframe⟩ :=
      ThingDevice.addProperty_holds this heap xs c h hcx (hfresh c (List.mem_cons_self c cs))
    cases k with
    | zero => simp [ThingDevice.addPropertiesRets, hret]
    | succ k =>
      have hnd' : ((xs ++ [c]) ++ cs).Nodup := by simpa using hnd
      have hfresh' : ∀ a ∈ cs, ((this.addProperty heap c).heap a).base.next = Ptr.null := by
        intro a ha
        have hax : a ∉ xs := by
          intro hm
          exact (List.nodup_append.mp hnd).2.2 hm (List.mem_cons_of_mem c ha)
        rw [hframe a hax]
        exact hfresh a (List.mem_cons_of_mem c ha)
      have ih := ThingDevice.addPropertiesRets_holds cs (this.addProperty heap c).device
        (this.addProperty heap c).heap (xs ++ [c]) k hstep hnd' hfresh'
        (by simpa using hk)
      simp only [ThingDevice.addPropertiesRets, List.getElem?_cons_succ, ih]
      simp only [List.length_append, List.length_singleton]
      congr 2
      omega

/-- The values returned by a sequence of `addDevice` calls on an adapter that holds `xs`. -/
theorem ThingAdapter.addDevicesRets_holds :
    ∀ (ds : List Nat) (this : ThingAdapter) (heap : DeviceHeap) (xs : List Nat) (k : Nat),
      this.Holds heap xs → (xs ++ ds).Nodup → (∀ d ∈ ds, (heap d).next = Ptr.null) →
      k < ds.length →
      (this.addDevicesRets heap ds)[k]? = some ((xs.length + k + 1) % 256)
  | [], _, _, _, _, _, _, _, hk => by simp at hk
  | d :: ds, this, heap, xs, k, h, hnd, hfresh, hk => by
    have hdx : d ∉ xs := by
      intro hm
      exact (List.nodup_append.mp hnd).2.2 hm (List.mem_cons_self d ds)
    obtain ⟨hstep, hret, _, hframe⟩ :=
      ThingAdapter.addDevice_holds this heap xs d h hdx (hfresh d (List.mem_cons_self d ds))
    cases k with
    | zero => simp [ThingAdapter.addDevicesRets, hret]
    | succ k =>
      have hnd' : ((xs ++ [d]) ++ ds).Nodup := by simpa using hnd
      have hfresh' : ∀ a ∈ ds, ((this.addDevice heap d).heap a).next = Ptr.null := by
        intro a ha
        have hax : a ∉ xs := by
          intro hm
          exact (List.nodup_append.mp hnd).2.2 hm (List.mem_cons_of_mem d ha)
        rw [hframe a hax]
        exact hfresh a (List.mem_cons_of_mem d ha)
      have ih := ThingAdapter.addDevicesRets_holds ds (this.addDevice heap d).adapter
        (this.addDevice heap d).heap (xs ++ [d]) k hstep hnd' hfresh'
        (by simpa using hk)
      simp only [ThingAdapter.addDevicesRets, List.getElem?_cons_succ, ih]
      simp only [List.length_append, List.length_singleton]
      congr 2
      omega

/-- C14: for every K, after K `addProperty` calls on distinct fresh cells on a fresh
`ThingDevice`, `propertyCount` equals K mod 256 and the k-th call, for every k from 1 to K,
returned k mod 256; after exactly 256 appends the last call has returned 0, `propertyCount`
is 0 and `getProperty(i)` returns `nullptr` for every index `i`, although the 256 cells are
linked from `firstProperty`.  The same holds for `addDevice`, `thingCount` and `getDevice`. -/
theorem C14_counter_wraps (deviceName deviceDescription : Option String)
    (deviceType : ThingType) (heap : PropertyHeap) (cs : List Nat)
    (adapterName adapterDescription : Option String) (dheap : DeviceHeap) (ds : List Nat)
    (hcs : cs.Nodup) (hfresh : ∀ c ∈ cs, (heap c).base.next = Ptr.null)
    (hds : ds.Nodup) (hdfresh : ∀ d ∈ ds, (dheap d).next = Ptr.null) :
    ((ThingDevice.built deviceName deviceDescription deviceType heap cs).1.propertyCount
          = cs.length % 256 ∧
        (∀ k, k < cs.length →
          ((ThingDevice.new deviceName deviceDescription deviceType).addPropertiesRets
            heap cs)[k]? = some ((k + 1) % 256)) ∧
        (cs.length = 256 →
          ((ThingDevice.new deviceName deviceDescription deviceType).addPropertiesRets
            heap cs)[255]? = some 0 ∧
          (ThingDevice.built deviceName deviceDescription deviceType heap cs).1.propertyCount
            = 0 ∧
          (∀ i, (ThingDevice.built deviceName deviceDescription deviceType heap cs).1.getProperty
            (ThingDevice.built deviceName deviceDescription deviceType heap cs).2 i
            = some Ptr.null) ∧
          Linked (propertyNext (ThingDevice.built deviceName deviceDescription deviceType heap cs).2)
            (ThingDevice.built deviceName deviceDescription deviceType heap cs).1.firstProperty
            cs)) ∧
      ((ThingAdapter.built adapterName adapterDescription dheap ds).1.thingCount
          = ds.length % 256 ∧
        (∀ k, k < ds.length →
          ((ThingAdapter.new adapterName adapterDescription).addDevicesRets dheap ds)[k]?
            = some ((k + 1) % 256)) ∧
        (ds.length = 256 →
          ((ThingAdapter.new adapterName adapterDescription).addDevicesRets dheap ds)[255]?
            = some 0 ∧
          (ThingAdapter.built adapterName adapterDescription dheap ds).1.thingCount = 0 ∧
          (∀ i, (ThingAdapter.built adapterName adapterDescription dheap ds).1.getDevice
            (ThingAdapter.built adapterName adapterDescription dheap ds).2 i = some Ptr.null) ∧
          Linked (deviceNext (ThingAdapter.built adapterName adapterDescription dheap ds).2)
            (ThingAdapter.built adapterName adapterDescription dheap ds).1.firstDevice ds)) := by
  have h := ThingDevice.device_built_holds deviceName deviceDescription deviceType heap cs
    hcs hfresh
  have h' := ThingAdapter.adapter_built_holds adapterName adapterDescription dheap ds
    hds hdfresh
  have hrets : ∀ k, k < cs.length →
      ((ThingDevice.new deviceName deviceDescription deviceType).addPropertiesRets
        heap cs)[k]? = some ((k + 1) % 256) := by
    intro k hk
    have := ThingDevice.addPropertiesRets_holds cs _ heap [] k
      (ThingDevice.device_holds_new deviceName deviceDescription deviceType heap)
      (by simpa using hcs) hfresh hk
    simpa using this
  have hrets' : ∀ k, k < ds.length →
      ((ThingAdapter.new adapterName adapterDescription).addDevicesRets dheap ds)[k]?
        = some ((k + 1) % 256) := by
    intro k hk
    have := ThingAdapter.addDevicesRets_holds ds _ dheap [] k
      (ThingAdapter.adapter_holds_new adapterName adapterDescription dheap)
      (by simpa using hds) hdfresh hk
    simpa using this
  refine ⟨⟨h.2.2.2, hrets, ?_⟩, ⟨h'.2.2.2, hrets', ?_⟩⟩
  · intro hlen
    have hcount : (ThingDevice.built deviceName deviceDescription deviceType heap
        cs).1.propertyCount = 0 := by
      rw [h.2.2.2, hlen]
    refine ⟨?_, hcount, ?_, h.1⟩
    · rw [hrets 255 (by omega)]
    · intro i
      exact ThingDevice.getProperty_ge _ _ i (by rw [hcount]; exact Nat.zero_le i)
  · intro hlen
    have hcount : (ThingAdapter.built adapterName adapterDescription dheap ds).1.thingCount
        = 0 := by
      rw [h'.2.2.2, hlen]
    refine ⟨?_, hcount, ?_, h'.1⟩
    · rw [hrets' 255 (by omega)]
    · intro i
      exact ThingAdapter.getDevice_ge _ _ i (by rw [hcount]; exact Nat.zero_le i)

/-- C14, witness: 256 cells appended to a fresh device and 256 devices to a fresh adapter;
the counters are 0 again. -/
theorem C14_counter_wraps_witness :
    (ThingDevice.built none none ThingType.THING freshProperties (List.range 256)).1.propertyCount
        = (List.range 256).length % 256 ∧
      (ThingAdapter.built none none freshDevices (List.range 256)).1.thingCount
        = (List.range 256).length % 256 ∧
      (List.range 256).length % 256 = 0 :=
  ⟨(C14_counter_wraps none none ThingType.THING freshProperties (List.range 256)
      none none freshDevices (List.range 256)
      (List.nodup_range 256) (fun _ _ => rfl) (List.nodup_range 256) (fun _ _ => rfl)).1.1,
    (C14_counter_wraps none none ThingType.THING freshProperties (List.range 256)
      none none freshDevices (List.range 256)
      (List.nodup_range 256) (fun _ _ => rfl) (List.nodup_range 256) (fun _ _ => rfl)).2.1,
    by simp⟩

/-! ## C15 : the shape of the property list -/

/-- A chain starts at its first address. -/
theorem linked_first (nx : Nat → Ptr) (p : Ptr) (xs : List Nat) (h : Linked nx p xs) :
    p = firstPtr xs := by
  cases xs with
  | nil => exact h
  | cons x xs => exact h.1

/-- The `next` pointer of the last address of a chain is null. -/
theorem linked_last_next (nx : Nat → Ptr) :
    ∀ (xs : List Nat) (p : Ptr) (l : Nat), Linked nx p xs → xs.getLast? = some l →
      nx l = Ptr.null
  | [], _, _, _, hl => by simp at hl
  | [x], _, l, h, hl => by
    have hxl : x = l := by simpa using hl
    subst hxl
    exact h.2
  | x :: y :: ys, _, l, h, hl => by
    have hl' : (y :: ys).getLast? = some l := by simpa [List.getLast?_cons_cons] using hl
    exact linked_last_next nx (y :: ys) (nx x) l h.2 hl'

/-- C15: for every `ThingDevice` reached from a fresh one by `addProperty` calls on K distinct
fresh cells `c_1, ..., c_K`: for K ≥ 1, `firstProperty` is `c_1`, `lastProperty` is `c_K`,
following `next` from `firstProperty` visits exactly `c_1, ..., c_K` in that order and then
`nullptr` (the `next` of `lastProperty` is `nullptr`), and `propertyCount` is congruent to K
modulo 256; for K = 0 both `firstProperty` and `lastProperty` are `nullptr` and
`propertyCount` is 0. -/
theorem C15_list_shape (deviceName deviceDescription : Option String)
    (deviceType : ThingType) (heap : PropertyHeap) (cs : List Nat)
    (hcs : cs.Nodup) (hfresh : ∀ c ∈ cs, (heap c).base.next = Ptr.null) :
    (∀ c1 cK, cs.head? = some c1 → cs.getLast? = some cK →
        (ThingDevice.built deviceName deviceDescription deviceType heap cs).1.firstProperty
          = Ptr.addr c1 ∧
        (ThingDevice.built deviceName deviceDescription deviceType heap cs).1.lastProperty
          = Ptr.addr cK ∧
        ((ThingDevice.built deviceName deviceDescription deviceType heap cs).2 cK).base.next
          = Ptr.null) ∧
      Linked (propertyNext (ThingDevice.built deviceName deviceDescription deviceType heap cs).2)
        (ThingDevice.built deviceName deviceDescription deviceType heap cs).1.firstProperty cs ∧
      (∀ i c, cs[i]? = some c →
        walk (propertyNext (ThingDevice.built deviceName deviceDescription deviceType heap cs).2) i
          (ThingDevice.built deviceName deviceDescription deviceType heap cs).1.firstProperty
          = some (Ptr.addr c)) ∧
      (ThingDevice.built deviceName deviceDescription deviceType heap cs).1.propertyCount % 256
        = cs.length % 256 ∧
      (ThingDevice.built deviceName deviceDescription deviceType heap cs).1.propertyCount < 256 ∧
      (cs = [] →
        (ThingDevice.built deviceName deviceDescription deviceType heap cs).1.firstProperty
          = Ptr.null ∧
        (ThingDevice.built deviceName deviceDescription deviceType heap cs).1.lastProperty
          = Ptr.null ∧
        (ThingDevice.built deviceName deviceDescription deviceType heap cs).1.propertyCount
          = 0) := by
  have h := ThingDevice.device_built_holds deviceName deviceDescription deviceType heap cs
    hcs hfresh
  generalize ThingDevice.built deviceName deviceDescription deviceType heap cs = st at h ⊢
  obtain ⟨hlink, hlast, _, hcount⟩ := h
  have hfirst := linked_first _ _ _ hlink
  refine ⟨?_, hlink, ?_, ?_, ?_, ?_⟩
  · intro c1 cK h1 hK
    refine ⟨?_, ?_, ?_⟩
    · rw [hfirst]
      simp [firstPtr, h1]
    · rw [hlast]
      simp [lastPtr, hK]
    · exact linked_last_next _ cs _ cK hlink hK
  · intro i c hc
    exact walk_linked _ cs _ i c hlink hc
  · rw [hcount, Nat.mod_mod]
  · rw [hcount]
    exact Nat.mod_lt _ (by decide)
  · intro hnil
    subst hnil
    exact ⟨hfirst, hlast, hcount⟩

/-- C15, witness: the cells at addresses `7, 3, 5` appended to a fresh device. -/
theorem C15_list_shape_witness :
    (ThingDevice.built none none ThingType.THING freshProperties [7, 3, 5]).1.firstProperty
        = Ptr.addr 7 ∧
      (ThingDevice.built none none ThingType.THING freshProperties [7, 3, 5]).1.lastProperty
        = Ptr.addr 5 ∧
      ((ThingDevice.built none none ThingType.THING freshProperties [7, 3, 5]).2 5).base.next
        = Ptr.null :=
  (C15_list_shape none none ThingType.THING freshProperties [7, 3, 5]
    (by decide) (fun _ _ => rfl)).1 7 5 rfl rfl

/-! ## C16 : the last byte of the buffer -/

/-- The comparison with a string returns as soon as the memory it may read is longer than the
string. -/
theorem strcmp_enough :
    ∀ (t mem : List Nat), t.length < mem.length → ∃ r, strcmp (t ++ [0]) mem = some r
  | _, [], h => by simp at h
  | [], y :: ys, _ => by
    by_cases hy : (0 : Nat) = y
    · exact ⟨0, by simp [strcmp, hy.symm]⟩
    · exact ⟨((0 : Nat) : Int) - (y : Int), by simp [strcmp, hy]⟩
  | x :: xs, y :: ys, h => by
    by_cases hxy : x = y
    · subst hxy
      by_cases hx : x = 0
      · exact ⟨0, by simp [strcmp, hx]⟩
      · obtain ⟨r, hr⟩ := strcmp_enough xs ys (by simpa using h)
        exact ⟨r, by simp [strcmp, hx, hr]⟩
    · exact ⟨(x : Int) - (y : Int), by simp [strcmp, hxy]⟩

/-- A comparison that returns within a region returns the same in any longer region. -/
theorem strcmp_append_right :
    ∀ (a buf ext : List Nat) (r : Int), strcmp a buf = some r → strcmp a (buf ++ ext) = some r
  | [], _, _, _, h => by simp [strcmp] at h
  | _ :: _, [], _, _, h => by simp [strcmp] at h
  | x :: xs, y :: ys, ext, r, h => by
    by_cases hxy : x = y
    · subst hxy
      by_cases hx : x = 0
      · simpa [strcmp, hx] using h
      · have h' : strcmp xs ys = some r := by simpa [strcmp, hx] using h
        have ih := strcmp_append_right xs ys ext r h'
        simpa [strcmp, hx] using ih
    · simpa [strcmp, hxy] using h

/-- Where `setValue` returns without reading past the buffer, `setValueIn` returns the same
cell, whatever follows the buffer in memory. -/
theorem setValueIn_of_setValue (s s' : ThingPropertyString) (beyond : Nat → Nat)
    (input : Option (List Nat)) (h : s.setValue input = some s') :
    s.setValueIn beyond input = some s' := by
  cases input with
  | none => exact h
  | some t =>
    cases hcmp : strcmp (t ++ [0]) s.value with
    | none => simp [ThingPropertyString.setValue, hcmp] at h
    | some r =>
      have hreg := strcmp_append_right (t ++ [0]) s.value
        ((List.range (t.length + 1)).map beyond) r hcmp
      simp only [ThingPropertyString.setValue, hcmp] at h
      simp only [ThingPropertyString.setValueIn, ThingPropertyString.region, hreg]
      exact h

/-- C16: `ThingPropertyString::setValue` never writes the last byte of the buffer.  For every
cell, whatever its 32-byte buffer holds and whatever follows the buffer in memory, and every
input (null or a string), the call returns and `value[31]` afterwards is `value[31]` before.
When the input is null or compares equal to the stored value the cell is not modified; when
the input is non-null and differs from the stored value, positions `0` to `30` hold the
first `min(length(s), 31)` bytes of the input followed by zero bytes, `changed` is true, and
the buffer is null-terminated if and only if `length(s) < 31` or `value[31]` was already
zero. -/
theorem C16_setValue_last_byte (s : ThingPropertyString) (beyond : Nat → Nat)
    (input : Option (List Nat)) (hlen : s.value.length = 32)
    (hinput : ∀ t, input = some t → ∀ b ∈ t, b ≠ 0) :
    ∃ s', s.setValueIn beyond input = some s' ∧
      s'.value[31]? = s.value[31]? ∧ s'.value.length = 32 ∧
      (input = none → s' = s) ∧
      (∀ t, input = some t →
        strcmp (t ++ [0]) (s.region beyond (t.length + 1)) = some 0 → s' = s) ∧
      (∀ t r, input = some t →
        strcmp (t ++ [0]) (s.region beyond (t.length + 1)) = some r → r ≠ 0 →
        s'.value = t.take 31 ++ List.replicate (31 - t.length) 0 ++ s.value.drop 31 ∧
        s'.changed = true ∧
        (cString s'.value ≠ none ↔ t.length < 31 ∨ s.value[31]? = some 0)) ∧
      (∀ s'', s.setValue input = some s'' → s'' = s') := by
  cases input with
  | none =>
    refine ⟨s, rfl, rfl, hlen, fun _ => rfl, fun _ _ _ => rfl, ?_, ?_⟩
    · intro t r ht
      exact Option.noConfusion ht
    · intro s'' hs''
      exact (Option.some.inj hs'').symm
  | some t =>
    have hnz := hinput t rfl
    have hreglen : t.length < (s.region beyond (t.length + 1)).length := by
      simp only [ThingPropertyString.region, List.length_append, List.length_map,
        List.length_range]
      omega
    obtain ⟨r, hcmp⟩ := strcmp_enough t (s.region beyond (t.length + 1)) hreglen
    have hcopy := strncpy_value s.value t (by omega) hnz
    have h31 : s.maxLength - 1 = 31 := rfl
    by_cases hr : r = 0
    · have hset : s.setValueIn beyond (some t) = some s := by
        simp [ThingPropertyString.setValueIn, hcmp, hr]
      refine ⟨s, hset, rfl, hlen, fun _ => rfl, fun _ _ _ => rfl, ?_, ?_⟩
      · intro t' r' ht' hr' hne
        have e : t = t' := Option.some.inj ht'
        subst e
        rw [hcmp] at hr'
        exact absurd (hr.symm.trans (Option.some.inj hr')) hne.symm
      · intro s'' hs''
        have := setValueIn_of_setValue s s'' beyond (some t) hs''
        rw [hset] at this
        exact (Option.some.inj this).symm
    · have hset : s.setValueIn beyond (some t) = some { s with
          value := t.take 31 ++ List.replicate (31 - t.length) 0 ++ s.value.drop 31,
          changed := true } := by
        simp only [ThingPropertyString.setValueIn, hcmp, h31, hcopy]
        rw [if_pos hr]
      refine ⟨_, hset, written_getElem? s.value t, ?_, ?_, ?_, ?_, ?_⟩
      · simp only [List.length_append, List.length_take, List.length_replicate,
          List.length_drop, hlen]
        omega
      · intro h
        exact Option.noConfusion h
      · intro t' ht' h0
        have e : t = t' := Option.some.inj ht'
        subst e
        rw [hcmp] at h0
        exact absurd (Option.some.inj h0) hr
      · intro t' r' ht' _ _
        have e : t = t' := Option.some.inj ht'
        subst e
        refine ⟨rfl, rfl, ?_⟩
        rw [cString_ne_none]
        exact written_terminated s.value t hlen hnz
      · intro s'' hs''
        have := setValueIn_of_setValue s s'' beyond (some t) hs''
        rw [hset] at this
        exact (Option.some.inj this).symm

/-- C16, witness: the buffer holds 32 bytes `7` and no terminator, the memory that follows
holds bytes `7` too, and the input is a string of 40 characters `7`, so that `strcmp` runs
past the buffer; the call returns a cell whose last byte is still `7`. -/
theorem C16_setValue_last_byte_witness :
    ∃ s', denseCell.setValueIn (fun _ => 7) (some (List.replicate 40 7)) = some s' ∧
      s'.value[31]? = denseCell.value[31]? ∧ s'.value.length = 32 :=
  (C16_setValue_last_byte denseCell (fun _ => 7) (some (List.replicate 40 7)) rfl
    (fun t ht b hb => by
      obtain rfl := Option.some.inj ht
      have := List.eq_of_mem_replicate hb
      omega)).imp (fun _ h => ⟨h.1, h.2.1, h.2.2.1⟩)

end Thing
